/-
  Verification of the PathPlanning trajectory pipeline.

  Shallow embedding of src/services/mathUtils.ts (first revision in the file,
  lines 1-734, which is the one the claims cite) together with the PHYSICS
  constants from the constants module.  JavaScript numbers are modelled as
  exact rationals; the transcendental library calls (Math.sqrt, THREE's
  angleTo/acos, Math.atan2) and the arc-length-parameterized Catmull-Rom
  curve evaluator (THREE.CatmullRomCurve3.getPointAt) are modelled as
  explicit function parameters, so every theorem quantifies over them and
  concrete runs instantiate them with computable approximations.
-/
import Mathlib

set_option maxRecDepth 8000

namespace PathPlanning

/-! ### Numeric model -/

/-- A computable integer square root by bounded binary search (fuel-driven so
that the kernel can evaluate it).  `isqrtGo n f lo hi` maintains
`lo * lo ≤ n < hi * hi`. -/
def isqrtGo (n : Nat) : Nat → Nat → Nat → Nat
  | 0, lo, _ => lo
  | f + 1, lo, hi =>
    if hi ≤ lo + 1 then lo
    else
      let mid := (lo + hi) / 2
      if mid * mid ≤ n then isqrtGo n f mid hi else isqrtGo n f lo mid

/-- Floor integer square root, with enough fuel for arguments below 2^128. -/
def natSqrt (n : Nat) : Nat := isqrtGo n 128 0 (n + 1)

/-- A computable stand-in for `Math.sqrt` on rationals: the floor square root
at 4 decimal digits of precision.  Used only to instantiate the abstract
square-root parameter in concrete runs; all universally quantified theorems
take the square-root function as a parameter. -/
def jsSqrt (x : ℚ) : ℚ :=
  if x ≤ 0 then 0
  else
    let y := x * 100000000
    (natSqrt (y.num.toNat / y.den) : ℚ) / 10000

/-- The property of an abstract square-root model that the width-projection
argument needs: it never underestimates (the real `Math.sqrt` satisfies it up
to the floating tolerance the spec allows). -/
def SqrtUB (s : ℚ → ℚ) : Prop := ∀ x : ℚ, 0 ≤ x → x ≤ s x * s x

/-! ### Physics constants (constants module, `PHYSICS`) -/

def GRAVITY : ℚ := 981 / 100
def FRICTION_COEFF : ℚ := 3 / 2
def MAX_VELOCITY : ℚ := 35
def MAX_ACCEL : ℚ := 10
def MAX_BRAKING : ℚ := 15
def TRACK_WIDTH_LIMIT : ℚ := 35

/-! ### Vectors -/

/-- Model of `THREE.Vector3` (coordinates as exact rationals). -/
structure V3 where
  x : ℚ
  y : ℚ
  z : ℚ
deriving DecidableEq

def vzero : V3 := ⟨0, 0, 0⟩

/-- Squared distance in the ground plane (x, z), the plane every optimizer
works in; the y channel carries the packed track width. -/
def planarDistSq (p c : V3) : ℚ :=
  (p.x - c.x) * (p.x - c.x) + (p.z - c.z) * (p.z - c.z)

/-- Full 3-component squared distance (`THREE.Vector3.distanceToSquared`). -/
def dist3Sq (p q : V3) : ℚ :=
  (p.x - q.x) * (p.x - q.x) + (p.y - q.y) * (p.y - q.y) + (p.z - q.z) * (p.z - q.z)

/-- `new THREE.Vector3().lerpVectors(a, b, t)`. -/
def lerp3 (a b : V3) (t : ℚ) : V3 :=
  ⟨a.x + (b.x - a.x) * t, a.y + (b.y - a.y) * t, a.z + (b.z - a.z) * t⟩

/-- `THREE.Vector3.normalize`: divide by the length, or by 1 when the length
is zero (three.js uses `divideScalar(length || 1)`). -/
def normalize3 (s : ℚ → ℚ) (v : V3) : V3 :=
  let l := s (v.x * v.x + v.y * v.y + v.z * v.z)
  let l1 := if l = 0 then 1 else l
  ⟨v.x / l1, v.y / l1, v.z / l1⟩

def lenSq3 (v : V3) : ℚ := v.x * v.x + v.y * v.y + v.z * v.z

def dot3 (u v : V3) : ℚ := u.x * v.x + u.y * v.y + u.z * v.z

/-! ### The shared width-constraint projection

Every optimizer projects a tentative point back toward the centerline point
at the same index whenever its planar squared distance exceeds the squared
limit; the limit is a fraction of half the stored width, with a 3.0 fallback
when the stored width channel is not positive. -/

/-- `const trackWidth = center.y > 0 ? center.y : 3.0; (trackWidth * 0.5) * frac`. -/
def widthLimit (center : V3) (frac : ℚ) : ℚ :=
  (if center.y > 0 then center.y else 3) * (1 / 2) * frac

/-- The projection idiom shared by all six optimizers: squared-distance test,
then scale the planar offset by `limit / sqrt(distSq)`. -/
def constrainTo (s : ℚ → ℚ) (center : V3) (limit : ℚ) (p : V3) : V3 :=
  let dx := p.x - center.x
  let dz := p.z - center.z
  let distSq := dx * dx + dz * dz
  if limit * limit < distSq then
    let dist := s distSq
    let ratio := limit / dist
    { p with x := center.x + dx * ratio, z := center.z + dz * ratio }
  else p

/-! ### Optimization 1: Laplacian smoother (`optimizeRacingLine`) -/

/-- One iteration of the Laplacian smoother: move every point 30% toward the
average of its wrap-around neighbours, then re-project onto the 90% width
limit.  The source builds a cloned `newPos` array and reads only the previous
iteration's positions, so the update is a pointwise function of the old
state. -/
def lapPass (s : ℚ → ℚ) (centerPoints : List V3) (racingLine : List V3) : List V3 :=
  let len := racingLine.length
  (List.range len).map (fun i =>
    let prev := racingLine.getD ((i + len - 1) % len) vzero
    let curr := racingLine.getD i vzero
    let next := racingLine.getD ((i + 1) % len) vzero
    let center := centerPoints.getD i vzero
    let avgX := (prev.x + next.x) / 2
    let avgZ := (prev.z + next.z) / 2
    let moved : V3 :=
      { curr with x := curr.x + (avgX - curr.x) * (3 / 10),
                  z := curr.z + (avgZ - curr.z) * (3 / 10) }
    constrainTo s center (widthLimit center (9 / 10)) moved)

/-- `optimizeRacingLine`: 20 fixed iterations of the Laplacian pass; inputs of
fewer than 3 points are returned unchanged. -/
def optimizeRacingLine (s : ℚ → ℚ) (centerPoints : List V3) : List V3 :=
  if centerPoints.length < 3 then centerPoints
  else (lapPass s centerPoints)^[20] centerPoints

/-! ### Optimization 2: stochastic shortcutter (`optimizeRRTStar`) -/

/-- `isShortcutValid`: sample the chord at integer resolution and compare each
sample against the linearly interpolated centerline position and width. -/
def isShortcutValid (centerPoints : List V3) (len idxStart idxEndRaw : ℕ)
    (pStart pEnd : V3) : Bool :=
  let distIdx := idxEndRaw - idxStart
  if distIdx ≤ 1 then true
  else
    (List.range (distIdx - 1)).all (fun k0 =>
      let k := k0 + 1
      let t : ℚ := (k : ℚ) / (distIdx : ℚ)
      let candPos := lerp3 pStart pEnd t
      let centerT : ℚ := (idxStart : ℚ) + (distIdx : ℚ) * t
      let idxLow := (⌊centerT⌋ % (len : ℤ)).toNat
      let idxHigh := (idxLow + 1) % len
      let subT : ℚ := centerT - (⌊centerT⌋ : ℚ)
      let pLow := centerPoints.getD idxLow vzero
      let pHigh := centerPoints.getD idxHigh vzero
      let centerPos := lerp3 pLow pHigh subT
      let wLow := if pLow.y > 0 then pLow.y else 3
      let wHigh := if pHigh.y > 0 then pHigh.y else 3
      let currentWidth := wLow + (wHigh - wLow) * subT
      let limit := currentWidth * (1 / 2) * (9 / 10)
      decide (dist3Sq candPos centerPos ≤ limit * limit))

/-- One trial of the stochastic rewiring phase.  The two random draws are
supplied from the outside; `% len` and `% 50 + 2` map them onto the ranges
`Math.floor(Math.random()*len)` and `Math.floor(Math.random()*50) + 2` the
source draws from. -/
def applyTrial (centerPoints : List V3) (len : ℕ) (path : List V3)
    (tr : ℕ × ℕ) : List V3 :=
  let idxA := tr.1 % len
  let jump := tr.2 % 50 + 2
  let idxB_Raw := idxA + jump
  let idxB := idxB_Raw % len
  let pA := path.getD idxA vzero
  let pB := path.getD idxB vzero
  if isShortcutValid centerPoints len idxA idxB_Raw pA pB then
    (List.range (jump - 1)).foldl (fun p i0 =>
      let i := i0 + 1
      let targetIdx := (idxA + i) % len
      let t : ℚ := (i : ℚ) / (jump : ℚ)
      p.set targetIdx (lerp3 pA pB t)) path
  else path

/-- One iteration of the post-process smoothing phase of `optimizeRRTStar`
(neighbour averaging with factor 0.3, then the 90% width projection). -/
def rrtSmoothPass (s : ℚ → ℚ) (centerPoints : List V3) (path : List V3) : List V3 :=
  let len := path.length
  (List.range len).map (fun i =>
    let prev := path.getD ((i + len - 1) % len) vzero
    let curr := path.getD i vzero
    let next := path.getD ((i + 1) % len) vzero
    let center := centerPoints.getD i vzero
    let moved : V3 :=
      { curr with x := curr.x + ((prev.x + next.x) / 2 - curr.x) * (3 / 10),
                  z := curr.z + ((prev.z + next.z) / 2 - curr.z) * (3 / 10) }
    constrainTo s center (widthLimit center (9 / 10)) moved)

/-- `optimizeRRTStar`: initialize from the centerline, run the supplied list
of stochastic shortcut trials (6000 in the source), then 60 smoothing
iterations. -/
def optimizeRRTStar (s : ℚ → ℚ) (trials : List (ℕ × ℕ)) (centerPoints : List V3) :
    List V3 :=
  if centerPoints.length < 3 then centerPoints
  else
    let len := centerPoints.length
    let afterTrials := trials.foldl (applyTrial centerPoints len) centerPoints
    (rrtSmoothPass s centerPoints)^[60] afterTrials

/-! ### Optimization 3: biharmonic smoothing (`optimizeQP`) -/

/-- One iteration of the biharmonic smoother: move 10% toward the 4-point
finite-difference target, then re-project onto the 90% width limit measured
against the original centerline. -/
def qpPass (s : ℚ → ℚ) (centerPoints : List V3) (path : List V3) : List V3 :=
  let len := path.length
  (List.range len).map (fun i =>
    let pm2 := path.getD ((i + len - 2) % len) vzero
    let pm1 := path.getD ((i + len - 1) % len) vzero
    let pp1 := path.getD ((i + 1) % len) vzero
    let pp2 := path.getD ((i + 2) % len) vzero
    let curr := path.getD i vzero
    let center := centerPoints.getD i vzero
    let targetX := (-pm2.x + 4 * pm1.x + 4 * pp1.x - pp2.x) / 6
    let targetZ := (-pm2.z + 4 * pm1.z + 4 * pp1.z - pp2.z) / 6
    let moved : V3 :=
      { curr with x := curr.x + (targetX - curr.x) * (1 / 10),
                  z := curr.z + (targetZ - curr.z) * (1 / 10) }
    constrainTo s center (widthLimit center (9 / 10)) moved)

/-- `optimizeQP`: optional initial guess (replaced by the centerline when
absent or of mismatched length), then 200 biharmonic iterations. -/
def optimizeQP (s : ℚ → ℚ) (centerPoints : List V3) (initialGuess : Option (List V3)) :
    List V3 :=
  if centerPoints.length < 3 then centerPoints
  else
    let path0 := match initialGuess with
      | some g => g
      | none => centerPoints
    let path1 := if path0.length ≠ centerPoints.length then centerPoints else path0
    (qpPass s centerPoints)^[200] path1

/-! ### Optimization 4: hybrid blend (`optimizeHybrid`) -/

/-- One iteration of the hybrid optimizer: blend 40% Laplacian target with
60% biharmonic target, move 15% toward the blend, re-project. -/
def hybridPass (s : ℚ → ℚ) (centerPoints : List V3) (path : List V3) : List V3 :=
  let len := path.length
  (List.range len).map (fun i =>
    let pm2 := path.getD ((i + len - 2) % len) vzero
    let pm1 := path.getD ((i + len - 1) % len) vzero
    let pp1 := path.getD ((i + 1) % len) vzero
    let pp2 := path.getD ((i + 2) % len) vzero
    let curr := path.getD i vzero
    let center := centerPoints.getD i vzero
    let laplacianX := (pm1.x + pp1.x) / 2
    let laplacianZ := (pm1.z + pp1.z) / 2
    let qpX := (-pm2.x + 4 * pm1.x + 4 * pp1.x - pp2.x) / 6
    let qpZ := (-pm2.z + 4 * pm1.z + 4 * pp1.z - pp2.z) / 6
    let targetX := (1 - 6 / 10) * laplacianX + (6 / 10) * qpX
    let targetZ := (1 - 6 / 10) * laplacianZ + (6 / 10) * qpZ
    let moved : V3 :=
      { curr with x := curr.x + (targetX - curr.x) * (15 / 100),
                  z := curr.z + (targetZ - curr.z) * (15 / 100) }
    constrainTo s center (widthLimit center (9 / 10)) moved)

/-- `optimizeHybrid`: 100 iterations of the blended pass. -/
def optimizeHybrid (s : ℚ → ℚ) (centerPoints : List V3) : List V3 :=
  if centerPoints.length < 3 then centerPoints
  else (hybridPass s centerPoints)^[100] centerPoints

/-- `optimizeRRTQP`: the search+refine pipeline, shortcutter output fed as the
biharmonic smoother's initial guess while constraints stay relative to the
true centerline. -/
def optimizeRRTQP (s : ℚ → ℚ) (trials : List (ℕ × ℕ)) (centerPoints : List V3) :
    List V3 :=
  optimizeQP s centerPoints (some (optimizeRRTStar s trials centerPoints))

/-! ### Optimization 6: receding-horizon local planner (`optimizeLocalPlanner`) -/

/-- One inner smoothing iteration over the 6-point window: indices 1 to 4 are
updated sequentially in place (the source mutates the window array), each
move followed by the 85% width projection against the centerline point the
window slot maps back to. -/
def windowSmoothIter (s : ℚ → ℚ) (centerPoints : List V3) (len i : ℕ)
    (w : List V3) : List V3 :=
  (List.range (w.length - 2)).foldl (fun w j0 =>
    let j := j0 + 1
    let prev := w.getD (j - 1) vzero
    let curr := w.getD j vzero
    let next := w.getD (j + 1) vzero
    let tx := (prev.x + next.x) / 2
    let tz := (prev.z + next.z) / 2
    let moved : V3 :=
      { curr with x := curr.x + (tx - curr.x) * (1 / 2),
                  z := curr.z + (tz - curr.z) * (1 / 2) }
    let originalIdx := (i + j) % len
    let center := centerPoints.getD originalIdx vzero
    w.set j (constrainTo s center (widthLimit center (85 / 100)) moved)) w

/-- The committed trajectory before the final loop-closing snap: starting at
the first centerline point, each planning cycle smooths a 6-point window
(current position plus a 5-point lookahead) for 15 iterations and commits
only the window's second point. -/
def localPreSnap (s : ℚ → ℚ) (centerPoints : List V3) : List V3 :=
  let len := centerPoints.length
  (List.range (len - 1)).foldl (fun path i =>
    let current := path.getD i vzero
    let window0 := current ::
      (List.range 5).map (fun k0 => centerPoints.getD ((i + k0 + 1) % len) vzero)
    let window := (windowSmoothIter s centerPoints len i)^[15] window0
    path ++ [window.getD 1 vzero]) [centerPoints.getD 0 vzero]

/-- `optimizeLocalPlanner`: the receding-horizon planner; when the first and
last committed points end within 5 units (full 3-component distance), the
last point is snapped onto the first. -/
def optimizeLocalPlanner (s : ℚ → ℚ) (centerPoints : List V3) : List V3 :=
  if centerPoints.length < 6 then centerPoints
  else
    let path := localPreSnap s centerPoints
    let first := path.getD 0 vzero
    let last := path.getD (path.length - 1) vzero
    if s (dist3Sq first last) < 5 then path.set (path.length - 1) first else path

/-! ### Marker parser (`parseTrackData`)

Strings are modelled as character lists.  The parser's numeric payload is a
JavaScript number, which can be NaN or infinite, so its output carries a
dedicated value type; the geometry claims take finite `Cone` records
directly, as the pipeline stages do. -/

/-- The whitespace characters `String.prototype.trim` and `parseFloat` skip
(the ASCII ones; the exotic Unicode space points do not occur in track
files). -/
def isJsSpace (c : Char) : Bool :=
  c = ' ' ∨ c.toNat = 9 ∨ c.toNat = 10 ∨ c.toNat = 11 ∨ c.toNat = 12 ∨ c.toNat = 13

def isDigit (c : Char) : Bool := '0' ≤ c ∧ c ≤ '9'

/-- JavaScript `String.prototype.split(sep)`: split on every occurrence,
keeping empty pieces. -/
def splitOnChar (sep : Char) : List Char → List (List Char)
  | [] => [[]]
  | c :: rest =>
    let r := splitOnChar sep rest
    if c = sep then [] :: r
    else
      match r with
      | [] => [[c]]
      | h :: t => (c :: h) :: t

/-- JavaScript `String.prototype.trim`. -/
def jsTrim (cs : List Char) : List Char :=
  ((cs.dropWhile isJsSpace).reverse.dropWhile isJsSpace).reverse

/-- JavaScript `String.prototype.includes`: substring containment. -/
def containsSub (hay needle : List Char) : Bool :=
  match hay with
  | [] => needle.isEmpty
  | _ :: t => needle.isPrefixOf hay || containsSub t needle

/-- The value of a JavaScript `parseFloat` call: NaN, an infinity, or a
finite value (modelled exactly; the engine would round it to a double). -/
inductive JsFloat where
  | nan
  | inf (neg : Bool)
  | val (q : ℚ)
deriving DecidableEq

def JsFloat.isNaN : JsFloat → Bool
  | .nan => true
  | _ => false

def digitsToNat (ds : List Char) : ℕ :=
  ds.foldl (fun a c => a * 10 + (c.toNat - '0'.toNat)) 0

/-- ECMAScript `parseFloat`: skip leading whitespace, then read the longest
prefix that is a signed decimal literal (`Infinity`, digits with optional
fraction, or a fraction alone, each with an optional exponent); anything
else yields NaN. -/
def jsParseFloat (cs0 : List Char) : JsFloat :=
  let cs := cs0.dropWhile isJsSpace
  let neg : Bool := match cs with
    | '-' :: _ => true
    | _ => false
  let cs := match cs with
    | '-' :: t => t
    | '+' :: t => t
    | _ => cs
  if ['I', 'n', 'f', 'i', 'n', 'i', 't', 'y'].isPrefixOf cs then JsFloat.inf neg
  else
    let intDs := cs.takeWhile isDigit
    let cs1 := cs.dropWhile isDigit
    let fracDs := match cs1 with
      | '.' :: t => t.takeWhile isDigit
      | _ => []
    let cs2 := match cs1 with
      | '.' :: t => t.dropWhile isDigit
      | _ => cs1
    if intDs.isEmpty ∧ fracDs.isEmpty then JsFloat.nan
    else
      let expPart : ℤ := match cs2 with
        | e :: t =>
          if e = 'e' ∨ e = 'E' then
            let esign : Bool := match t with
              | '-' :: _ => true
              | _ => false
            let t2 := match t with
              | '-' :: u => u
              | '+' :: u => u
              | _ => t
            let eds := t2.takeWhile isDigit
            if eds.isEmpty then 0
            else if esign then -(digitsToNat eds : ℤ) else (digitsToNat eds : ℤ)
          else 0
        | [] => 0
      let mant : ℚ := (digitsToNat intDs : ℚ)
        + (digitsToNat fracDs : ℚ) / ((10 : ℚ) ^ fracDs.length)
      let value := mant * (10 : ℚ) ^ expPart
      JsFloat.val (if neg then -value else value)

/-- `ConeType` from the types module. -/
inductive ConeType where
  | blue
  | yellow
  | orange
  | carStart
deriving DecidableEq

/-- A marker as emitted by the parser: the coordinates are raw JavaScript
numbers.  The random string id the source attaches is used only by the
editor UI and is omitted. -/
structure ParsedCone where
  x : JsFloat
  y : JsFloat
  type : ConeType
deriving DecidableEq

/-- The markers contributed by a single CSV line: at most one, and none when
the line has fewer than 3 fields, a non-numeric x or y, or a tag matching
none of the four recognized substrings. -/
def lineCones (line : List Char) : List ParsedCone :=
  let parts := splitOnChar ',' line
  if parts.length < 3 then []
  else
    let tag := jsTrim (parts.getD 0 [])
    let x := jsParseFloat (parts.getD 1 [])
    let y := jsParseFloat (parts.getD 2 [])
    if x.isNaN ∨ y.isNaN then []
    else if containsSub tag "blue".toList then [⟨x, y, ConeType.blue⟩]
    else if containsSub tag "yellow".toList then [⟨x, y, ConeType.yellow⟩]
    else if containsSub tag "car_start".toList then [⟨x, y, ConeType.carStart⟩]
    else if containsSub tag "orange".toList then [⟨x, y, ConeType.orange⟩]
    else []

/-- `parseTrackData`: split the text into lines and collect each line's
markers; a line that yields none is skipped without affecting the rest. -/
def parseTrackData (csv : List Char) : List ParsedCone :=
  ((splitOnChar '\n' csv).map lineCones).flatten

/-! ### The centerline builder (`calculateCenterline`) -/

/-- `ConeData` as consumed by the geometry pipeline.  The source also carries
a random string id used only by the editor UI; no pipeline function reads
it, so it is omitted here. -/
structure Cone where
  x : ℚ
  y : ℚ
  z : ℚ
  type : ConeType
deriving DecidableEq

/-- A candidate midpoint produced by pairing one yellow marker with its
nearest blue marker. -/
structure Cand where
  x : ℚ
  y : ℚ
  width : ℚ
  pairingDist : ℚ
deriving DecidableEq

/-- Pairing phase of `calculateCenterline`: for each yellow marker find the
nearest blue one (first strict minimum in list order, matching the forEach
scan), and accept the pair when the distance is below the track-width
limit.  The distance is `Math.sqrt` of the squared distance, hence the
square-root parameter. -/
def candidatesOf (s : ℚ → ℚ) (blues yellows : List Cone) : List Cand :=
  yellows.filterMap (fun yPt =>
    let best := blues.foldl (fun (acc : Option (ℚ × Cone)) bPt =>
      let dx := yPt.x - bPt.x
      let dy := yPt.y - bPt.y
      let d := s (dx * dx + dy * dy)
      match acc with
      | none => some (d, bPt)
      | some (m, b) => if d < m then some (d, bPt) else some (m, b)) none
    match best with
    | none => none
    | some (minDist, nearestBlue) =>
      if minDist < TRACK_WIDTH_LIMIT then
        some ⟨(yPt.x + nearestBlue.x) / 2, (yPt.y + nearestBlue.y) / 2, minDist, minDist⟩
      else none)

/-- A spacing-filtered midpoint. -/
structure Mid where
  x : ℚ
  y : ℚ
  width : ℚ
deriving DecidableEq

/-- Overlap filtering: sort candidates by ascending pairing distance, then
greedily accept a candidate only when it is at least `MIN_SPACING = 2.5`
away from every already accepted midpoint (squared-distance test). -/
def midpointsOf (s : ℚ → ℚ) (blues yellows : List Cone) : List Mid :=
  let cands := (candidatesOf s blues yellows).mergeSort
    (fun a b => decide (a.pairingDist ≤ b.pairingDist))
  cands.foldl (fun mids cand =>
    let tooClose := mids.any (fun m =>
      decide ((m.x - cand.x) * (m.x - cand.x) + (m.y - cand.y) * (m.y - cand.y)
        < (5 / 2) * (5 / 2)))
    if tooClose then mids else mids ++ [⟨cand.x, cand.y, cand.width⟩]) []

/-- The greedy scan for the unvisited midpoint with the smallest
`distance * penalty` score, where the penalty biases toward the current
heading.  Mirrors the inner for-loop of the ordering phase. -/
def bestNext (s : ℚ → ℚ) (midpoints : List Mid) (visited : List ℕ)
    (currentPos : Mid) (heading : Option V3) : Option (ℚ × ℕ) :=
  (List.range midpoints.length).foldl (fun acc i =>
    if visited.contains i then acc
    else
      let pt := midpoints.getD i ⟨0, 0, 0⟩
      let dx := pt.x - currentPos.x
      let dy := pt.y - currentPos.y
      let dSq := dx * dx + dy * dy
      let d := s dSq
      let penalty := match heading with
        | none => 1
        | some h =>
          let toCandidate := normalize3 s ⟨dx, 0, dy⟩
          3 - 2 * dot3 h toCandidate
      let score := d * penalty
      match acc with
      | none => some (score, i)
      | some (m, j) => if score < m then some (score, i) else some (m, j)) none

/-- One step of the ordering loop: pick the best-scoring unvisited midpoint,
stop when none is left or the raw distance to it exceeds the track-width
limit, otherwise append it (width packed into the y channel) and continue.
Fuel is the number of midpoints, which bounds the loop. -/
def orderLoop (s : ℚ → ℚ) (midpoints : List Mid) :
    ℕ → List ℕ → ℕ → List V3 → List V3
  | 0, _, _, sortedPoints => sortedPoints
  | fuel + 1, visited, currentIdx, sortedPoints =>
    if midpoints.length ≤ sortedPoints.length then sortedPoints
    else
      let currentPos := midpoints.getD currentIdx ⟨0, 0, 0⟩
      let heading : Option V3 :=
        if 1 < sortedPoints.length then
          let p1 := sortedPoints.getD (sortedPoints.length - 2) vzero
          let p2 := sortedPoints.getD (sortedPoints.length - 1) vzero
          some (normalize3 s ⟨p2.x - p1.x, 0, p2.z - p1.z⟩)
        else none
      match bestNext s midpoints visited currentPos heading with
      | none => sortedPoints
      | some (_, nearestIdx) =>
        let np := midpoints.getD nearestIdx ⟨0, 0, 0⟩
        let rawDist := s ((np.x - currentPos.x) * (np.x - currentPos.x)
          + (np.y - currentPos.y) * (np.y - currentPos.y))
        if TRACK_WIDTH_LIMIT < rawDist then sortedPoints
        else
          orderLoop s midpoints fuel (nearestIdx :: visited) nearestIdx
            (sortedPoints ++ [⟨np.x, np.width, np.y⟩])

/-- The scan for the accepted midpoint closest to the start position
(`minStartDist` / `startIdx` accumulation of the source). -/
def scanMin (s : ℚ → ℚ) (startPos : ℚ × ℚ) (midpoints : List Mid) : Option (ℚ × ℕ) :=
  (List.range midpoints.length).foldl
    (fun (acc : Option (ℚ × ℕ)) i =>
      let pt := midpoints.getD i ⟨0, 0, 0⟩
      let dx := startPos.1 - pt.x
      let dy := startPos.2 - pt.y
      let d := s (dx * dx + dy * dy)
      match acc with
      | none => some (d, i)
      | some (m, j) => if d < m then some (d, i) else some (m, j)) none

/-- The ordering phase: seed with the midpoint nearest the start position
(width packed into the y channel), then follow the greedy heading-biased
walk; `scanMin = none` corresponds to the source's `startIdx === -1` early
return. -/
def orderPhase (s : ℚ → ℚ) (startPos : ℚ × ℚ) (midpoints : List Mid) : List V3 :=
  match scanMin s startPos midpoints with
  | none => []
  | some (_, startIdx) =>
    let sp := midpoints.getD startIdx ⟨0, 0, 0⟩
    orderLoop s midpoints midpoints.length [startIdx] startIdx
      [⟨sp.x, sp.width, sp.y⟩]

/-- `calculateCenterline` (revision with width packing): pair yellow markers
with their nearest blue markers, filter overlaps, then order greedily from
the accepted point nearest the start marker (or the origin), packing each
point's width into the y channel of the emitted vector. -/
def calculateCenterline (s : ℚ → ℚ) (cones : List Cone) : List V3 :=
  let blues := cones.filter (fun c => c.type = ConeType.blue)
  let yellows := cones.filter (fun c => c.type = ConeType.yellow)
  let startNode := cones.find? (fun c => c.type = ConeType.carStart)
  let startPos : ℚ × ℚ := match startNode with
    | some c => (c.x, c.y)
    | none => (0, 0)
  if yellows.isEmpty ∨ blues.isEmpty then []
  else
    let candidates := candidatesOf s blues yellows
    if candidates.isEmpty then []
    else
      let midpoints := midpointsOf s blues yellows
      if midpoints.isEmpty then []
      else orderPhase s startPos midpoints

/-! ### Curve sampler and speed solver (`generateDetailedPath`) -/

/-- `PathPoint` from the types module (the display color is kept as its hex
string). -/
structure PathPoint where
  x : ℚ
  y : ℚ
  z : ℚ
  trackWidth : ℚ
  dist : ℚ
  curvature : ℚ
  maxVelocity : ℚ
  velocity : ℚ
  acceleration : ℚ
  yaw : ℚ
  pitch : ℚ
  color : String
deriving DecidableEq

def ppDefault : PathPoint := ⟨0, 0, 0, 0, 0, 0, 0, 0, 0, 0, 0, ""⟩

/-- The external real-valued functions `generateDetailedPath` relies on:
`Math.sqrt`, `Math.acos` (inside `THREE.Vector3.angleTo`) with the value it
returns on a zero denominator, `Math.atan2`, and the arc-length
parameterized evaluator of the closed Catmull-Rom curve
(`THREE.CatmullRomCurve3.getPointAt` with tension 0.5). -/
structure Ext where
  sqrt : ℚ → ℚ
  acos : ℚ → ℚ
  halfPi : ℚ
  atan2 : ℚ → ℚ → ℚ
  curveAt : List V3 → ℚ → V3

/-- `THREE.Vector3.angleTo`: `acos` of the clamped cosine, or `π/2` when the
denominator is zero. -/
def angleTo (E : Ext) (u v : V3) : ℚ :=
  let denominator := E.sqrt (lenSq3 u * lenSq3 v)
  if denominator = 0 then E.halfPi
  else E.acos (max (-1) (min 1 (dot3 u v / denominator)))

/-- `THREE.Curve.getSpacedPoints(divisions)`: `divisions + 1` points at
uniform arc-length parameters `d / divisions`. -/
def getSpacedPoints (E : Ext) (controlPoints : List V3) (divisions : ℕ) : List V3 :=
  (List.range (divisions + 1)).map
    (fun (d : ℕ) => E.curveAt controlPoints ((d : ℚ) / (divisions : ℚ)))

def maxGripAcc : ℚ := FRICTION_COEFF * GRAVITY

/-- Cumulative planar arc-length distances of the sampled points (the source
accumulates `cumulativeDist` while walking the array; this list holds its
value at every index). -/
def cumDists (s : ℚ → ℚ) : List V3 → List ℚ
  | [] => []
  | p :: rest => 0 :: cumDistAux s p 0 rest
where
  cumDistAux (s : ℚ → ℚ) : V3 → ℚ → List V3 → List ℚ
  | _, _, [] => []
  | prev, acc, p :: rest =>
    let a := acc + s ((p.x - prev.x) * (p.x - prev.x) + (p.z - prev.z) * (p.z - prev.z))
    a :: cumDistAux s p a rest

/-- Pass 0 of `generateDetailedPath`: per-sample geometry, curvature and the
curvature-limited speed ceiling; velocity is initialized to the ceiling. -/
def pass0 (E : Ext) (points : List V3) : List PathPoint :=
  let dists := cumDists E.sqrt points
  let n := points.length
  (List.range n).map (fun i =>
    let p := points.getD i vzero
    let pPrev := points.getD ((i + n - 1) % n) vzero
    let pNext := points.getD ((i + 1) % n) vzero
    let v1 := normalize3 E.sqrt ⟨p.x - pPrev.x, 0, p.z - pPrev.z⟩
    let v2 := normalize3 E.sqrt ⟨pNext.x - p.x, 0, pNext.z - p.z⟩
    let angle := angleTo E v1 v2
    let segLen := E.sqrt ((p.x - pPrev.x) * (p.x - pPrev.x) + (p.z - pPrev.z) * (p.z - pPrev.z))
      + E.sqrt ((pNext.x - p.x) * (pNext.x - p.x) + (pNext.z - p.z) * (pNext.z - p.z))
    let k := angle / (segLen * (1 / 2) + 1 / 1000)
    let radius := if 1 / 1000 < k then 1 / k else 10000
    let maxLatVel := E.sqrt (maxGripAcc * radius)
    let limitVel := min maxLatVel MAX_VELOCITY
    let yaw := E.atan2 v2.z v2.x
    { x := p.x, y := p.z, z := 0, trackWidth := p.y,
      dist := dists.getD i 0, curvature := k,
      maxVelocity := limitVel, velocity := limitVel,
      acceleration := 0, yaw := -yaw, pitch := 0, color := "#ffffff" })

/-- The braking update of the backward pass: given the already-updated next
sample, cap this sample's velocity by the friction-circle braking limit. -/
def backStep (s : ℚ → ℚ) (next p : PathPoint) : PathPoint :=
  let dist := next.dist - p.dist
  let vNext := next.velocity
  let k := p.curvature
  let latAccel := vNext * vNext * k
  let gripSq := maxGripAcc * maxGripAcc
  let latSq := latAccel * latAccel
  let availableDecel := s (max 0 (gripSq - latSq))
  let brakingLimit := min availableDecel MAX_BRAKING
  let vLimit := s (vNext * vNext + 2 * brakingLimit * dist)
  { p with velocity := min p.velocity vLimit }

/-- Backward (braking) pass: walk from the second-to-last sample down to the
first, each sample capped against the already-updated sample after it; the
last sample is untouched. -/
def backwardPass (s : ℚ → ℚ) : List PathPoint → List PathPoint
  | [] => []
  | p :: rest =>
    match backwardPass s rest with
    | [] => [p]
    | q :: t => backStep s q p :: q :: t

/-- The acceleration update of the forward pass. -/
def forwardStep (s : ℚ → ℚ) (prev p : PathPoint) : PathPoint :=
  let dist := p.dist - prev.dist
  let vPrev := prev.velocity
  let k := p.curvature
  let latAccel := vPrev * vPrev * k
  let gripSq := maxGripAcc * maxGripAcc
  let latSq := latAccel * latAccel
  let availableAccel := s (max 0 (gripSq - latSq))
  let engineLimit := min availableAccel MAX_ACCEL
  let vLimit := s (vPrev * vPrev + 2 * engineLimit * dist)
  { p with velocity := min p.velocity vLimit }

/-- Forward (acceleration) pass: walk from the second sample to the last,
each capped against the already-updated sample before it; the first sample
is untouched. -/
def forwardPass (s : ℚ → ℚ) : List PathPoint → List PathPoint
  | [] => []
  | p :: rest => p :: forwardAux s p rest
where
  forwardAux (s : ℚ → ℚ) : PathPoint → List PathPoint → List PathPoint
  | _, [] => []
  | prev, p :: rest =>
    let p' := forwardStep s prev p
    p' :: forwardAux s p' rest

/-- Overwrite the velocity of the sample at index `i`. -/
def setVel (l : List PathPoint) (i : ℕ) (v : ℚ) : List PathPoint :=
  l.set i { l.getD i ppDefault with velocity := v }

/-- The seeding of the loop-closure boundary condition at the top of every
iteration after the first: last velocity becomes `min(endVel, startVel)`. -/
def seedStep (l : List PathPoint) : List PathPoint :=
  setVel l (l.length - 1) (min (l.getD (l.length - 1) ppDefault).velocity
    (l.getD 0 ppDefault).velocity)

/-- The propagation step between the passes: the first sample's velocity is
set (copied, not lowered) to the last sample's velocity. -/
def propagateStep (l : List PathPoint) : List PathPoint :=
  setVel l 0 (l.getD (l.length - 1) ppDefault).velocity

/-- The re-sync at the end of every iteration: the last sample's velocity is
set to the first sample's velocity. -/
def resyncStep (l : List PathPoint) : List PathPoint :=
  setVel l (l.length - 1) (l.getD 0 ppDefault).velocity

/-- One outer iteration of the flying-lap solver. -/
def solveIter (s : ℚ → ℚ) (doSeed : Bool) (l : List PathPoint) : List PathPoint :=
  let l1 := if doSeed then seedStep l else l
  let l2 := backwardPass s l1
  let l3 := propagateStep l2
  let l4 := forwardPass s l3
  resyncStep l4

/-- The four fixed outer iterations (the seeding runs only for `iter > 0`). -/
def flyingLapSolver (s : ℚ → ℚ) (l : List PathPoint) : List PathPoint :=
  solveIter s true (solveIter s true (solveIter s true (solveIter s false l)))

/-- Heatmap colors from the constants module. -/
def COLOR_BRAKE : String := "#ef4444"
def COLOR_COAST : String := "#ffffff"
def COLOR_ACCEL : String := "#22c55e"

/-- Pass 3: acceleration between consecutive samples (snapped to zero below
the 0.1 noise threshold) and the display color bucketed by its sign; the
source lerps each bucket color with itself, which is that color. -/
def accelStep (p pNext : PathPoint) : PathPoint :=
  let dist := pNext.dist - p.dist
  let accel0 := (pNext.velocity * pNext.velocity - p.velocity * p.velocity) / (2 * dist)
  let accel := if |accel0| < 1 / 10 then 0 else accel0
  let color := if accel < -(1 / 2) then COLOR_BRAKE
    else if 1 / 2 < accel then COLOR_ACCEL
    else COLOR_COAST
  { p with acceleration := accel, color := color }

/-- The acceleration-and-color pass: every sample but the last is updated
from its successor, and the last sample copies the first sample's
acceleration and color. -/
def accelColorPass (l : List PathPoint) : List PathPoint :=
  let n := l.length
  let l2 := (List.range n).map (fun i =>
    if i < n - 1 then accelStep (l.getD i ppDefault) (l.getD (i + 1) ppDefault)
    else l.getD i ppDefault)
  let first := l2.getD 0 ppDefault
  let lastE := l2.getD (n - 1) ppDefault
  l2.set (n - 1) { lastE with acceleration := first.acceleration, color := first.color }

/-- `generateDetailedPath`: fewer than 3 control points yield the empty path;
otherwise the closed Catmull-Rom fit is resampled by `getSpacedPoints` at
`max(200, 8·N)` divisions and run through pass 0, the four solver
iterations, and the acceleration pass. -/
def generateDetailedPath (E : Ext) (controlPoints : List V3) : List PathPoint :=
  if controlPoints.length < 3 then []
  else
    let samples := max 200 (controlPoints.length * 8)
    let points := getSpacedPoints E controlPoints samples
    accelColorPass (flyingLapSolver E.sqrt (pass0 E points))

/-! ### Metadata aggregator (`getTrackMetadata`) -/

structure TrackMetadata where
  name : String
  totalLength : ℚ
  avgSpeed : ℚ
  estLapTime : ℚ
  maxLatG : ℚ
  maxLongG : ℚ
  minLongG : ℚ
deriving DecidableEq

/-- The lateral g of a sample: `v²·curvature / gravity`. -/
def latG (p : PathPoint) : ℚ := p.velocity * p.velocity * p.curvature / GRAVITY

/-- The longitudinal g of a sample: `acceleration / gravity`. -/
def longG (p : PathPoint) : ℚ := p.acceleration / GRAVITY

/-- One step of the mutable `maxLatG` / `maxLongG` / `minLongG` accumulation
of `getTrackMetadata`. -/
def gStep (m : ℚ × ℚ × ℚ) (p : PathPoint) : ℚ × ℚ × ℚ :=
  (if m.1 < latG p then latG p else m.1,
   if m.2.1 < longG p then longG p else m.2.1,
   if longG p < m.2.2 then longG p else m.2.2)

/-- `getTrackMetadata`: reduces a path to summary statistics; the g-force
maxima/minimum are accumulated starting from 0, exactly as the source's
mutable fold. -/
def getTrackMetadata (path : List PathPoint) : TrackMetadata :=
  if path.length = 0 then ⟨"Empty", 0, 0, 0, 0, 0, 0⟩
  else
    let totalLength := (path.getD (path.length - 1) ppDefault).dist
    let avgSpeed := (path.foldl (fun acc p => acc + p.velocity) 0) / (path.length : ℚ)
    let estLapTime := totalLength / (avgSpeed + 1 / 100)
    let gs := path.foldl gStep (0, 0, 0)
    ⟨"Custom Circuit", totalLength, avgSpeed, estLapTime, gs.1, gs.2.1, gs.2.2⟩

/-! ## Generic list-access helpers -/

theorem getD_map_range {α : Type} (f : ℕ → α) (n i : ℕ) (d : α) :
    ((List.range n).map f).getD i d = if i < n then f i else d := by
  by_cases h : i < n
  · simp [List.getD_eq_getElem?_getD, List.getElem?_range h, h]
  · have hle : ((List.range n).map f).length ≤ i := by
      simpa using Nat.le_of_not_lt h
    simp [List.getD_eq_getElem?_getD, List.getElem?_eq_none hle, h]

theorem getD_set_ne {α : Type} (l : List α) {i j : ℕ} (h : i ≠ j) (a : α) (d : α) :
    (l.set i a).getD j d = l.getD j d := by
  simp [List.getD_eq_getElem?_getD, List.getElem?_set_ne h]

theorem getD_set_self {α : Type} (l : List α) {i : ℕ} (h : i < l.length) (a : α) (d : α) :
    (l.set i a).getD i d = a := by
  simp [List.getD_eq_getElem?_getD, List.getElem?_set_self h]

theorem getD_append_left {α : Type} (l₁ l₂ : List α) {i : ℕ} (h : i < l₁.length) (d : α) :
    (l₁ ++ l₂).getD i d = l₁.getD i d := by
  simp [List.getD_eq_getElem?_getD, List.getElem?_append_left h]

/-! ## Claim C7: the metadata aggregator -/

/-- The folded g statistics split into three independent folds. -/
theorem gfold_split (l : List PathPoint) (a b c : ℚ) :
    l.foldl gStep (a, b, c)
      = (l.foldl (fun m p => max m (latG p)) a,
         l.foldl (fun m p => max m (longG p)) b,
         l.foldl (fun m p => min m (longG p)) c) := by
  induction l generalizing a b c with
  | nil => rfl
  | cons p t ih =>
    have h1 : (if a < latG p then latG p else a) = max a (latG p) := by
      rcases lt_or_le a (latG p) with h | h
      · simp [h, max_eq_right h.le]
      · simp [not_lt.mpr h, max_eq_left h]
    have h2 : (if b < longG p then longG p else b) = max b (longG p) := by
      rcases lt_or_le b (longG p) with h | h
      · simp [h, max_eq_right h.le]
      · simp [not_lt.mpr h, max_eq_left h]
    have h3 : (if longG p < c then longG p else c) = min c (longG p) := by
      rcases lt_or_le (longG p) c with h | h
      · simp [h, min_eq_right h.le]
      · simp [not_lt.mpr h, min_eq_left h]
    simp only [List.foldl_cons, gStep, h1, h2, h3, ih]

/-- Claim C7 (corrected).  The aggregator's g statistics are the fold of
`max` (respectively `min`) over the samples STARTING FROM 0, not the plain
maximum/minimum over the samples: the accumulators are initialized to zero,
so an all-negative profile reports 0 instead of its true maximum.  For the
empty input the zeroed record is returned, as the claim states. -/
theorem C7_metadata_g_stats (path : List PathPoint) :
    (path = [] → getTrackMetadata path = ⟨"Empty", 0, 0, 0, 0, 0, 0⟩) ∧
    (path ≠ [] →
      (getTrackMetadata path).maxLatG = path.foldl (fun m p => max m (latG p)) 0 ∧
      (getTrackMetadata path).maxLongG = path.foldl (fun m p => max m (longG p)) 0 ∧
      (getTrackMetadata path).minLongG = path.foldl (fun m p => min m (longG p)) 0) := by
  constructor
  · intro h
    subst h
    rfl
  · intro h
    have hlen : path.length ≠ 0 := fun hc => h (List.length_eq_zero.mp hc)
    unfold getTrackMetadata
    simp only [hlen, if_false, gfold_split]
    exact ⟨trivial, trivial, trivial⟩

/-- Witness for C7 at a concrete one-sample path. -/
theorem C7_metadata_g_stats_witness :
    ([({ ppDefault with acceleration := -(981 / 100) } : PathPoint)] ≠ ([] : List PathPoint)) ∧
    (getTrackMetadata [({ ppDefault with acceleration := -(981 / 100) } : PathPoint)]).maxLatG
      = [({ ppDefault with acceleration := -(981 / 100) } : PathPoint)].foldl
          (fun m p => max m (latG p)) 0 :=
  ⟨by with_unfolding_all decide,
   ((C7_metadata_g_stats [{ ppDefault with acceleration := -(981 / 100) }]).2
     (by with_unfolding_all decide)).1⟩

/-- Counterexample to C7 as stated: a one-sample path whose only
longitudinal g is -1; the claimed peak longitudinal g (the maximum over all
samples of acceleration/gravity) would be -1, but `getTrackMetadata`
returns 0 for it, and its trough is reported as -1 only because -1 < 0. -/
theorem C7_counterexample :
    (getTrackMetadata [({ ppDefault with acceleration := -(981 / 100) } : PathPoint)]).maxLongG = 0
    ∧ longG ({ ppDefault with acceleration := -(981 / 100) } : PathPoint) = -1 := by
  with_unfolding_all decide

/-! ## Claim C8: pairing count bound and empty-color behaviour -/

/-- Claim C8 (confirmed).  With either marker color absent the centerline is
empty, and the pairing phase yields at most one candidate midpoint per
RightBoundary (yellow) marker. -/
theorem C8_pairing_bound (s : ℚ → ℚ) (cones : List Cone) :
    ((cones.filter (fun c => c.type = ConeType.blue) = []
      ∨ cones.filter (fun c => c.type = ConeType.yellow) = []) →
      calculateCenterline s cones = []) ∧
    (candidatesOf s (cones.filter (fun c => c.type = ConeType.blue))
        (cones.filter (fun c => c.type = ConeType.yellow))).length
      ≤ (cones.filter (fun c => c.type = ConeType.yellow)).length := by
  constructor
  · intro h
    have hempty : (cones.filter (fun c => c.type = ConeType.yellow)).isEmpty
        ∨ (cones.filter (fun c => c.type = ConeType.blue)).isEmpty := by
      rcases h with h | h
      · exact Or.inr (by simp [h])
      · exact Or.inl (by simp [h])
    unfold calculateCenterline
    simp only [hempty, if_true]
  · exact List.length_filterMap_le _ _

/-- Witness for C8 on a concrete marker set with no blue markers. -/
theorem C8_pairing_bound_witness :
    calculateCenterline jsSqrt [⟨0, 0, 0, ConeType.yellow⟩, ⟨4, 4, 0, ConeType.yellow⟩] = [] :=
  (C8_pairing_bound jsSqrt [⟨0, 0, 0, ConeType.yellow⟩, ⟨4, 4, 0, ConeType.yellow⟩]).1
    (Or.inl (by with_unfolding_all decide))

/-! ## Claim C9: parser line skipping -/

/-- Claim C9 (confirmed).  A line with fewer than 3 comma-separated fields,
or a non-numeric x or y field (NaN under `parseFloat`), or a tag containing
none of the four recognized substrings, contributes no marker; and the
parse of the whole document is exactly the concatenation of the per-line
results, so such lines are skipped without failing the rest. -/
theorem C9_parser_skips_bad_lines (csv line : List Char) :
    (((splitOnChar ',' line).length < 3
      ∨ (jsParseFloat ((splitOnChar ',' line).getD 1 [])).isNaN = true
      ∨ (jsParseFloat ((splitOnChar ',' line).getD 2 [])).isNaN = true
      ∨ (containsSub (jsTrim ((splitOnChar ',' line).getD 0 [])) "blue".toList = false
        ∧ containsSub (jsTrim ((splitOnChar ',' line).getD 0 [])) "yellow".toList = false
        ∧ containsSub (jsTrim ((splitOnChar ',' line).getD 0 [])) "car_start".toList = false
        ∧ containsSub (jsTrim ((splitOnChar ',' line).getD 0 [])) "orange".toList = false)) →
      lineCones line = []) ∧
    parseTrackData csv = ((splitOnChar '\n' csv).map lineCones).flatten := by
  refine ⟨fun h => ?_, rfl⟩
  rcases Nat.lt_or_ge (splitOnChar ',' line).length 3 with hlen | hlen
  · simp [lineCones, hlen]
  · have hlen' : ¬ (splitOnChar ',' line).length < 3 := Nat.not_lt.mpr hlen
    simp only [List.getD_eq_getElem?_getD] at h
    rcases h with h | h | h | ⟨h1, h2, h3, h4⟩
    · exact absurd h hlen'
    · simp [lineCones, hlen', h]
    · simp [lineCones, hlen', h]
    · have e1 : containsSub (jsTrim ((splitOnChar ',' line)[0]?.getD []))
        ['b', 'l', 'u', 'e'] = false := h1
      have e2 : containsSub (jsTrim ((splitOnChar ',' line)[0]?.getD []))
        ['y', 'e', 'l', 'l', 'o', 'w'] = false := h2
      have e3 : containsSub (jsTrim ((splitOnChar ',' line)[0]?.getD []))
        ['c', 'a', 'r', '_', 's', 't', 'a', 'r', 't'] = false := h3
      have e4 : containsSub (jsTrim ((splitOnChar ',' line)[0]?.getD []))
        ['o', 'r', 'a', 'n', 'g', 'e'] = false := h4
      simp [lineCones, hlen', e1, e2, e3, e4]

/-- Witness for C9: a line with an unrecognized tag between two good lines
is dropped while both good lines still parse. -/
theorem C9_parser_skips_bad_lines_witness :
    (containsSub (jsTrim ((splitOnChar ',' "fuchsia,1,2".toList).getD 0 []))
        "blue".toList = false
      ∧ containsSub (jsTrim ((splitOnChar ',' "fuchsia,1,2".toList).getD 0 []))
        "yellow".toList = false
      ∧ containsSub (jsTrim ((splitOnChar ',' "fuchsia,1,2".toList).getD 0 []))
        "car_start".toList = false
      ∧ containsSub (jsTrim ((splitOnChar ',' "fuchsia,1,2".toList).getD 0 []))
        "orange".toList = false) ∧
    lineCones "fuchsia,1,2".toList = [] ∧
    (parseTrackData "blue,1,2\nfuchsia,1,2\nyellow,3,4".toList).length = 2 := by
  refine ⟨?_, ?_, ?_⟩
  · with_unfolding_all decide
  · exact (C9_parser_skips_bad_lines [] "fuchsia,1,2".toList).1
      (Or.inr (Or.inr (Or.inr (by with_unfolding_all decide))))
  · with_unfolding_all decide

/-! ## Length preservation machinery -/

theorem length_foldl_preserve {α β : Type} (g : List α → β → List α)
    (hg : ∀ p b, (g p b).length = p.length) (l : List β) (init : List α) :
    (l.foldl g init).length = init.length := by
  induction l generalizing init with
  | nil => rfl
  | cons b t ih => rw [List.foldl_cons, ih (g init b), hg]

theorem length_iterate {α : Type} {f : List α → List α}
    (hf : ∀ l, (f l).length = l.length) (n : ℕ) (l : List α) :
    (f^[n] l).length = l.length := by
  induction n generalizing l with
  | zero => rfl
  | succ m ih => rw [Function.iterate_succ_apply, ih (f l), hf]

theorem length_lapPass (s : ℚ → ℚ) (c path : List V3) :
    (lapPass s c path).length = path.length := by
  simp [lapPass]

theorem length_rrtSmoothPass (s : ℚ → ℚ) (c path : List V3) :
    (rrtSmoothPass s c path).length = path.length := by
  simp [rrtSmoothPass]

theorem length_qpPass (s : ℚ → ℚ) (c path : List V3) :
    (qpPass s c path).length = path.length := by
  simp [qpPass]

theorem length_hybridPass (s : ℚ → ℚ) (c path : List V3) :
    (hybridPass s c path).length = path.length := by
  simp [hybridPass]

theorem length_applyTrial (c : List V3) (len : ℕ) (path : List V3) (tr : ℕ × ℕ) :
    (applyTrial c len path tr).length = path.length := by
  dsimp only [applyTrial]
  split
  · exact length_foldl_preserve _ (fun p b => by simp) _ _
  · rfl

theorem length_optimizeRacingLine (s : ℚ → ℚ) (cps : List V3) :
    (optimizeRacingLine s cps).length = cps.length := by
  unfold optimizeRacingLine
  split
  · rfl
  · exact length_iterate (length_lapPass s cps) 20 cps

theorem length_optimizeRRTStar (s : ℚ → ℚ) (trials : List (ℕ × ℕ)) (cps : List V3) :
    (optimizeRRTStar s trials cps).length = cps.length := by
  unfold optimizeRRTStar
  split
  · rfl
  · rw [length_iterate (length_rrtSmoothPass s cps) 60]
    exact length_foldl_preserve _ (fun p b => length_applyTrial _ _ p b) _ _

theorem length_optimizeQP (s : ℚ → ℚ) (cps : List V3) (guess : Option (List V3)) :
    (optimizeQP s cps guess).length = cps.length := by
  unfold optimizeQP
  split
  · rfl
  · rw [length_iterate (length_qpPass s cps) 200]
    cases guess with
    | none => simp
    | some g =>
      simp only []
      split
      · rfl
      · next h => exact Decidable.of_not_not h

theorem length_optimizeHybrid (s : ℚ → ℚ) (cps : List V3) :
    (optimizeHybrid s cps).length = cps.length := by
  unfold optimizeHybrid
  split
  · rfl
  · exact length_iterate (length_hybridPass s cps) 100 cps

theorem length_optimizeRRTQP (s : ℚ → ℚ) (trials : List (ℕ × ℕ)) (cps : List V3) :
    (optimizeRRTQP s trials cps).length = cps.length :=
  length_optimizeQP s cps _

theorem length_localPreSnap (s : ℚ → ℚ) (cps : List V3) :
    (localPreSnap s cps).length = cps.length - 1 + 1 := by
  unfold localPreSnap
  have gen : ∀ (l : List ℕ) (init : List V3) (g : List V3 → ℕ → V3),
      ((l.foldl (fun path i => path ++ [g path i]) init).length = init.length + l.length) := by
    intro l
    induction l with
    | nil => intro init g; simp
    | cons b t ih =>
      intro init g
      rw [List.foldl_cons, ih]
      simp
      omega
  have := gen (List.range (cps.length - 1)) [cps.getD 0 vzero]
    (fun path i =>
      ((windowSmoothIter s cps cps.length i)^[15]
        (path.getD i vzero ::
          (List.range 5).map (fun k0 => cps.getD ((i + k0 + 1) % cps.length) vzero))).getD 1 vzero)
  simpa [Nat.add_comm] using this

theorem length_optimizeLocalPlanner (s : ℚ → ℚ) (cps : List V3) :
    (optimizeLocalPlanner s cps).length = cps.length := by
  unfold optimizeLocalPlanner
  split
  · rfl
  · next h =>
    have h6 : 6 ≤ cps.length := Nat.le_of_not_lt h
    dsimp only
    split
    · rw [List.length_set, length_localPreSnap]
      omega
    · rw [length_localPreSnap]
      omega

/-! ## Claim C10: all optimizers preserve sequence length -/

/-- The six optimizer variants; the stochastic ones carry their random
draws, the biharmonic one its optional initial guess. -/
inductive OptKind where
  | laplacian
  | shortcutter (trials : List (ℕ × ℕ))
  | biharmonic (guess : Option (List V3))
  | hybrid
  | searchRefine (trials : List (ℕ × ℕ))
  | localPlanner

/-- Dispatch an optimizer variant on a control-point sequence. -/
def runOpt (s : ℚ → ℚ) : OptKind → List V3 → List V3
  | OptKind.laplacian, cps => optimizeRacingLine s cps
  | OptKind.shortcutter tr, cps => optimizeRRTStar s tr cps
  | OptKind.biharmonic g, cps => optimizeQP s cps g
  | OptKind.hybrid, cps => optimizeHybrid s cps
  | OptKind.searchRefine tr, cps => optimizeRRTQP s tr cps
  | OptKind.localPlanner, cps => optimizeLocalPlanner s cps

/-- The minimum viable point count of each optimizer. -/
def minViable : OptKind → ℕ
  | OptKind.localPlanner => 6
  | _ => 3

/-- The width-limit fraction each optimizer enforces. -/
def limitFrac : OptKind → ℚ
  | OptKind.localPlanner => 85 / 100
  | _ => 9 / 10

/-- Claim C10 (confirmed).  Every optimizer returns exactly as many points
as it was given (for any input at all, in particular for inputs of at least
the minimum viable size); the receding-horizon local planner commits one
point per centerline point. -/
theorem C10_optimizer_length (s : ℚ → ℚ) (k : OptKind) (cps : List V3) :
    (runOpt s k cps).length = cps.length := by
  cases k with
  | laplacian => exact length_optimizeRacingLine s cps
  | shortcutter tr => exact length_optimizeRRTStar s tr cps
  | biharmonic g => exact length_optimizeQP s cps g
  | hybrid => exact length_optimizeHybrid s cps
  | searchRefine tr => exact length_optimizeRRTQP s tr cps
  | localPlanner => exact length_optimizeLocalPlanner s cps

/-! ## Claim C6: sample count of the path generator -/

theorem length_getSpacedPoints (E : Ext) (cps : List V3) (n : ℕ) :
    (getSpacedPoints E cps n).length = n + 1 := by
  unfold getSpacedPoints
  rw [List.length_map, List.length_range]

theorem length_pass0 (E : Ext) (pts : List V3) :
    (pass0 E pts).length = pts.length := by
  simp [pass0]

theorem length_backwardPass (s : ℚ → ℚ) (l : List PathPoint) :
    (backwardPass s l).length = l.length := by
  induction l with
  | nil => rfl
  | cons p rest ih =>
    simp only [backwardPass]
    cases h : backwardPass s rest with
    | nil => simp [← ih, h]
    | cons q t => simp [← ih, h]

theorem length_forwardPass (s : ℚ → ℚ) (l : List PathPoint) :
    (forwardPass s l).length = l.length := by
  have aux : ∀ (prev : PathPoint) (t : List PathPoint),
      (forwardPass.forwardAux s prev t).length = t.length := by
    intro prev t
    induction t generalizing prev with
    | nil => rfl
    | cons p rest ih => simp [forwardPass.forwardAux, ih]
  cases l with
  | nil => rfl
  | cons p rest => simp [forwardPass, aux]

theorem length_setVel (l : List PathPoint) (i : ℕ) (v : ℚ) :
    (setVel l i v).length = l.length := by
  simp [setVel]

theorem length_solveIter (s : ℚ → ℚ) (b : Bool) (l : List PathPoint) :
    (solveIter s b l).length = l.length := by
  unfold solveIter resyncStep propagateStep seedStep
  cases b <;>
    simp [length_setVel, length_forwardPass, length_backwardPass]

theorem length_flyingLapSolver (s : ℚ → ℚ) (l : List PathPoint) :
    (flyingLapSolver s l).length = l.length := by
  unfold flyingLapSolver
  rw [length_solveIter, length_solveIter, length_solveIter, length_solveIter]

theorem length_accelColorPass (l : List PathPoint) :
    (accelColorPass l).length = l.length := by
  simp [accelColorPass]

/-- The full length formula for `generateDetailedPath`: empty below 3
control points, otherwise one more than `max 200 (8·N)` because
`getSpacedPoints(divisions)` emits `divisions + 1` points. -/
theorem generateDetailedPath_length (E : Ext) (cps : List V3) :
    (generateDetailedPath E cps).length
      = if cps.length < 3 then 0 else max 200 (cps.length * 8) + 1 := by
  unfold generateDetailedPath
  split
  · rfl
  · rw [length_accelColorPass, length_flyingLapSolver, length_pass0,
      length_getSpacedPoints]

/-- Claim C6 (corrected).  Below 3 control points the result is empty, as
claimed; but the resampling yields `max(200, 8·N) + 1` path points, one
more than the claim states, because `getSpacedPoints(divisions)` returns
`divisions + 1` points (both endpoints of the closed curve). -/
theorem C6_sample_count (E : Ext) (cps : List V3) :
    (cps.length < 3 → generateDetailedPath E cps = []) ∧
    (3 ≤ cps.length →
      (generateDetailedPath E cps).length = max 200 (cps.length * 8) + 1) := by
  constructor
  · intro h
    unfold generateDetailedPath
    simp [h]
  · intro h
    rw [generateDetailedPath_length]
    simp [Nat.not_lt.mpr h]

/-- The external functions instantiated trivially (used only to exercise
concrete runs where their values are irrelevant). -/
def extConst : Ext :=
  { sqrt := jsSqrt, acos := fun _ => 0, halfPi := 157 / 100,
    atan2 := fun _ _ => 0, curveAt := fun _ _ => vzero }

/-- Witness for C6 on a concrete 3-point input. -/
theorem C6_sample_count_witness :
    (3 : ℕ) ≤ ([⟨0, 0, 0⟩, ⟨1, 0, 0⟩, ⟨0, 0, 1⟩] : List V3).length ∧
    (generateDetailedPath extConst [⟨0, 0, 0⟩, ⟨1, 0, 0⟩, ⟨0, 0, 1⟩]).length
      = max 200 (([⟨0, 0, 0⟩, ⟨1, 0, 0⟩, ⟨0, 0, 1⟩] : List V3).length * 8) + 1 :=
  ⟨by decide,
   (C6_sample_count extConst [⟨0, 0, 0⟩, ⟨1, 0, 0⟩, ⟨0, 0, 1⟩]).2 (by decide)⟩

/-- Counterexample to C6 as stated: for 3 control points the claim says the
path has `max(200, 24) = 200` samples, but the code produces 201. -/
theorem C6_counterexample :
    (generateDetailedPath extConst [⟨0, 0, 0⟩, ⟨1, 0, 0⟩, ⟨0, 0, 1⟩]).length = 201
    ∧ (201 : ℕ) ≠ max 200 (([⟨0, 0, 0⟩, ⟨1, 0, 0⟩, ⟨0, 0, 1⟩] : List V3).length * 8) := by
  constructor
  · rw [generateDetailedPath_length]
    decide
  · decide

/-! ## Claim C3: no fewer-than-3 guard in the centerline builder -/

theorem candidatesOf_yellows_nil (s : ℚ → ℚ) (blues : List Cone) :
    candidatesOf s blues [] = [] := rfl

theorem candidatesOf_blues_nil (s : ℚ → ℚ) (yellows : List Cone) :
    candidatesOf s [] yellows = [] := by
  unfold candidatesOf
  rw [List.filterMap_eq_nil_iff]
  intro y _
  rfl

theorem midpointsOf_of_candidates_nil (s : ℚ → ℚ) (blues yellows : List Cone)
    (h : candidatesOf s blues yellows = []) : midpointsOf s blues yellows = [] := by
  unfold midpointsOf
  rw [h]
  simp

/-- An option-valued fold whose step always produces `some` yields `some`
whenever the accumulator is `some` or the list is non-empty. -/
theorem foldl_isSome {α β : Type} (step : Option α → β → Option α)
    (hstep : ∀ acc b, (step acc b).isSome = true) :
    ∀ (l : List β) (acc : Option α), (acc.isSome = true ∨ l ≠ []) →
      ((l.foldl step acc).isSome = true) := by
  intro l
  induction l with
  | nil =>
    intro acc h
    rcases h with h | h
    · exact h
    · exact absurd rfl h
  | cons b t ih =>
    intro acc _
    rw [List.foldl_cons]
    exact ih (step acc b) (Or.inl (hstep acc b))

/-- The ordering loop never shrinks the accumulated sequence. -/
theorem orderLoop_length_ge (s : ℚ → ℚ) (midpoints : List Mid) :
    ∀ (fuel : ℕ) (visited : List ℕ) (currentIdx : ℕ) (acc : List V3),
      acc.length ≤ (orderLoop s midpoints fuel visited currentIdx acc).length := by
  intro fuel
  induction fuel with
  | zero => intro _ _ acc; exact Nat.le_refl _
  | succ f ih =>
    intro visited currentIdx acc
    unfold orderLoop
    split
    · exact Nat.le_refl _
    · dsimp only
      split
      · exact Nat.le_refl _
      · split
        · exact Nat.le_refl _
        · next np _ _ =>
          refine Nat.le_trans ?_ (ih _ _ _)
          simp

/-- `scanMin` finds a start index on any non-empty midpoint list. -/
theorem scanMin_isSome (s : ℚ → ℚ) (startPos : ℚ × ℚ) (midpoints : List Mid)
    (h : midpoints ≠ []) : (scanMin s startPos midpoints).isSome = true := by
  unfold scanMin
  refine foldl_isSome _ ?_ _ _ (Or.inr ?_)
  · intro acc b
    cases acc with
    | none => rfl
    | some x =>
      rcases x with ⟨m, j⟩
      dsimp only
      split <;> rfl
  · intro h0
    rw [← List.length_eq_zero, List.length_range, List.length_eq_zero] at h0
    exact h h0

/-- The ordering phase emits at least one point on a non-empty midpoint
list. -/
theorem orderPhase_ne_nil (s : ℚ → ℚ) (startPos : ℚ × ℚ) (midpoints : List Mid)
    (h : midpoints ≠ []) : orderPhase s startPos midpoints ≠ [] := by
  unfold orderPhase
  rcases Option.isSome_iff_exists.mp (scanMin_isSome s startPos midpoints h)
    with ⟨⟨d0, startIdx⟩, heq⟩
  rw [heq]
  intro hres
  dsimp only at hres
  have hge := orderLoop_length_ge s midpoints midpoints.length [startIdx] startIdx
    [⟨(midpoints.getD startIdx ⟨0, 0, 0⟩).x, (midpoints.getD startIdx ⟨0, 0, 0⟩).width,
      (midpoints.getD startIdx ⟨0, 0, 0⟩).y⟩]
  rw [hres] at hge
  simp at hge

/-- Claim C3 (corrected).  `calculateCenterline` has no fewer-than-3 guard:
it returns the empty sequence exactly when no candidate midpoint survives
pairing and spacing-filtering, and whenever at least one does, it returns at
least that one point - so outputs of length 1 and 2 do occur. -/
theorem C3_centerline_no_min_guard (s : ℚ → ℚ) (cones : List Cone) :
    calculateCenterline s cones = []
      ↔ midpointsOf s (cones.filter (fun c => c.type = ConeType.blue))
          (cones.filter (fun c => c.type = ConeType.yellow)) = [] := by
  unfold calculateCenterline
  dsimp only
  split
  · next hg =>
    refine iff_of_true rfl ?_
    rcases hg with h | h
    · rw [List.isEmpty_iff] at h
      rw [h]
      exact midpointsOf_of_candidates_nil s _ [] (candidatesOf_yellows_nil s _)
    · rw [List.isEmpty_iff] at h
      rw [h]
      exact midpointsOf_of_candidates_nil s [] _ (candidatesOf_blues_nil s _)
  · split
    · next hc =>
      rw [List.isEmpty_iff] at hc
      exact iff_of_true rfl (midpointsOf_of_candidates_nil s _ _ hc)
    · split
      · next hm =>
        rw [List.isEmpty_iff] at hm
        exact iff_of_true rfl hm
      · next hm =>
        rw [List.isEmpty_iff] at hm
        exact iff_of_false (orderPhase_ne_nil s _ _ hm) hm

/-- Counterexample to C3 as stated: one blue and one yellow marker one unit
apart produce exactly one accepted midpoint and `calculateCenterline`
returns a sequence of length 1, which the claim says can never happen. -/
theorem C3_counterexample :
    (calculateCenterline jsSqrt
      [⟨0, 0, 0, ConeType.blue⟩, ⟨1, 0, 0, ConeType.yellow⟩]).length = 1 := by
  with_unfolding_all decide

/-- Witness for C3 on a concrete empty-midpoint input. -/
theorem C3_centerline_no_min_guard_witness :
    calculateCenterline jsSqrt ([] : List Cone) = [] :=
  (C3_centerline_no_min_guard jsSqrt []).mpr (by with_unfolding_all decide)

/-! ## Claim C4: which solver steps lower velocities -/

theorem getD_setVel_ne (l : List PathPoint) {i j : ℕ} (h : i ≠ j) (v : ℚ) :
    (setVel l i v).getD j ppDefault = l.getD j ppDefault :=
  getD_set_ne l h _ _

theorem getD_setVel_self (l : List PathPoint) {i : ℕ} (h : i < l.length) (v : ℚ) :
    (setVel l i v).getD i ppDefault = { l.getD i ppDefault with velocity := v } :=
  getD_set_self l h _ _

theorem backStep_velocity_le (s : ℚ → ℚ) (q p : PathPoint) :
    (backStep s q p).velocity ≤ p.velocity :=
  min_le_left _ _

theorem backStep_maxVelocity (s : ℚ → ℚ) (q p : PathPoint) :
    (backStep s q p).maxVelocity = p.maxVelocity := rfl

theorem forwardStep_velocity_le (s : ℚ → ℚ) (q p : PathPoint) :
    (forwardStep s q p).velocity ≤ p.velocity :=
  min_le_left _ _

theorem forwardStep_maxVelocity (s : ℚ → ℚ) (q p : PathPoint) :
    (forwardStep s q p).maxVelocity = p.maxVelocity := rfl

theorem backwardPass_velocity_le (s : ℚ → ℚ) (l : List PathPoint) (i : ℕ) :
    ((backwardPass s l).getD i ppDefault).velocity ≤ (l.getD i ppDefault).velocity := by
  induction l generalizing i with
  | nil => exact le_refl _
  | cons p rest ih =>
    simp only [backwardPass]
    cases h : backwardPass s rest with
    | nil =>
      have : rest.length = 0 := by rw [← length_backwardPass s rest, h]; rfl
      rw [List.length_eq_zero.mp this]
    | cons q t =>
      cases i with
      | zero => exact backStep_velocity_le s q p
      | succ j =>
        simp only [List.getD_cons_succ]
        rw [← h]
        exact ih j

theorem backwardPass_maxVelocity (s : ℚ → ℚ) (l : List PathPoint) (i : ℕ) :
    ((backwardPass s l).getD i ppDefault).maxVelocity
      = (l.getD i ppDefault).maxVelocity := by
  induction l generalizing i with
  | nil => rfl
  | cons p rest ih =>
    simp only [backwardPass]
    cases h : backwardPass s rest with
    | nil =>
      have : rest.length = 0 := by rw [← length_backwardPass s rest, h]; rfl
      rw [List.length_eq_zero.mp this]
    | cons q t =>
      cases i with
      | zero => rfl
      | succ j =>
        simp only [List.getD_cons_succ]
        rw [← h]
        exact ih j

theorem forwardAux_velocity_le (s : ℚ → ℚ) (t : List PathPoint) :
    ∀ (prev : PathPoint) (i : ℕ),
      ((forwardPass.forwardAux s prev t).getD i ppDefault).velocity
        ≤ (t.getD i ppDefault).velocity := by
  induction t with
  | nil => intro prev i; exact le_refl _
  | cons p rest ih =>
    intro prev i
    cases i with
    | zero => exact forwardStep_velocity_le s prev p
    | succ j =>
      simp only [forwardPass.forwardAux, List.getD_cons_succ]
      exact ih _ j

theorem forwardAux_maxVelocity (s : ℚ → ℚ) (t : List PathPoint) :
    ∀ (prev : PathPoint) (i : ℕ),
      ((forwardPass.forwardAux s prev t).getD i ppDefault).maxVelocity
        = (t.getD i ppDefault).maxVelocity := by
  induction t with
  | nil => intro prev i; rfl
  | cons p rest ih =>
    intro prev i
    cases i with
    | zero => rfl
    | succ j =>
      simp only [forwardPass.forwardAux, List.getD_cons_succ]
      exact ih _ j

theorem forwardPass_velocity_le (s : ℚ → ℚ) (l : List PathPoint) (i : ℕ) :
    ((forwardPass s l).getD i ppDefault).velocity ≤ (l.getD i ppDefault).velocity := by
  cases l with
  | nil => exact le_refl _
  | cons p rest =>
    cases i with
    | zero => exact le_refl _
    | succ j =>
      simp only [forwardPass, List.getD_cons_succ]
      exact forwardAux_velocity_le s rest p j

theorem forwardPass_maxVelocity (s : ℚ → ℚ) (l : List PathPoint) (i : ℕ) :
    ((forwardPass s l).getD i ppDefault).maxVelocity
      = (l.getD i ppDefault).maxVelocity := by
  cases l with
  | nil => rfl
  | cons p rest =>
    cases i with
    | zero => rfl
    | succ j =>
      simp only [forwardPass, List.getD_cons_succ]
      exact forwardAux_maxVelocity s rest p j

theorem seedStep_velocity_le (l : List PathPoint) (i : ℕ) :
    ((seedStep l).getD i ppDefault).velocity ≤ (l.getD i ppDefault).velocity := by
  unfold seedStep
  by_cases hi : l.length - 1 = i
  · subst hi
    by_cases hlt : l.length - 1 < l.length
    · rw [getD_setVel_self l hlt]
      exact min_le_left _ _
    · have : l.length = 0 := by omega
      rw [List.length_eq_zero.mp this]
      exact le_refl _
  · rw [getD_setVel_ne l hi]

/-- Claim C4 (corrected).  The backward pass, the forward pass and the
seeding step only ever lower velocities and leave every sample's
curvature-derived ceiling field untouched; the claim fails for the
propagation step (and the end-of-iteration re-sync), which copy the
loop-boundary velocity instead of taking a minimum - see the
counterexample. -/
theorem C4_passes_only_lower (s : ℚ → ℚ) (l : List PathPoint) (i : ℕ) :
    ((backwardPass s l).getD i ppDefault).velocity ≤ (l.getD i ppDefault).velocity ∧
    ((backwardPass s l).getD i ppDefault).maxVelocity = (l.getD i ppDefault).maxVelocity ∧
    ((forwardPass s l).getD i ppDefault).velocity ≤ (l.getD i ppDefault).velocity ∧
    ((forwardPass s l).getD i ppDefault).maxVelocity = (l.getD i ppDefault).maxVelocity ∧
    ((seedStep l).getD i ppDefault).velocity ≤ (l.getD i ppDefault).velocity :=
  ⟨backwardPass_velocity_le s l i, backwardPass_maxVelocity s l i,
   forwardPass_velocity_le s l i, forwardPass_maxVelocity s l i,
   seedStep_velocity_le l i⟩

/-- A 3-sample solver state: sample 0 in a medium corner (ceiling 5),
sample 1 in a tight corner (ceiling 1), sample 2 on a straight
(ceiling 10), 0.1 apart, each velocity at its ceiling as pass 0 leaves
them. -/
def c4samples : List PathPoint :=
  [{ ppDefault with dist := 0, curvature := 5886 / 10000, maxVelocity := 5, velocity := 5 },
   { ppDefault with dist := 1 / 10, curvature := 14715 / 1000, maxVelocity := 1, velocity := 1 },
   { ppDefault with dist := 2 / 10, curvature := 0, maxVelocity := 10, velocity := 10 }]

/-- Counterexample to C4 as stated: after the backward pass lowers sample 0
to its braking limit (about 1.985), the propagation step overwrites it with
the last sample's velocity 10 - a raise, and a value strictly above sample
0's own curvature ceiling of 5. -/
theorem C4_counterexample :
    ((backwardPass jsSqrt c4samples).getD 0 ppDefault).velocity
        < ((propagateStep (backwardPass jsSqrt c4samples)).getD 0 ppDefault).velocity ∧
    ((propagateStep (backwardPass jsSqrt c4samples)).getD 0 ppDefault).maxVelocity
        < ((propagateStep (backwardPass jsSqrt c4samples)).getD 0 ppDefault).velocity := by
  with_unfolding_all decide

/-! ## Claim C1: width containment of the optimizers -/

/-- The width projection really does keep the result inside the squared
limit, for any square-root model that never underestimates. -/
theorem constrainTo_bound (s : ℚ → ℚ) (hs : SqrtUB s) (c : V3) (lim : ℚ) (p : V3) :
    planarDistSq (constrainTo s c lim p) c ≤ lim * lim := by
  unfold constrainTo planarDistSq
  dsimp only
  split
  · next hgt =>
    have hnn : (0 : ℚ) ≤ (p.x - c.x) * (p.x - c.x) + (p.z - c.z) * (p.z - c.z) :=
      add_nonneg (mul_self_nonneg _) (mul_self_nonneg _)
    have hub := hs _ hnn
    rcases eq_or_ne (s ((p.x - c.x) * (p.x - c.x) + (p.z - c.z) * (p.z - c.z))) 0
      with h0 | h0
    · rw [h0]
      simp only [div_zero, mul_zero, add_sub_cancel_left]
      simpa using mul_self_nonneg lim
    · set t := s ((p.x - c.x) * (p.x - c.x) + (p.z - c.z) * (p.z - c.z)) with ht
      have heq : (t * t) * ((lim / t) * (lim / t)) = lim * lim := by
        field_simp
      calc (c.x + (p.x - c.x) * (lim / t) - c.x) * (c.x + (p.x - c.x) * (lim / t) - c.x)
            + (c.z + (p.z - c.z) * (lim / t) - c.z) * (c.z + (p.z - c.z) * (lim / t) - c.z)
          = ((p.x - c.x) * (p.x - c.x) + (p.z - c.z) * (p.z - c.z))
            * ((lim / t) * (lim / t)) := by ring
        _ ≤ (t * t) * ((lim / t) * (lim / t)) :=
            mul_le_mul_of_nonneg_right hub (mul_self_nonneg _)
        _ = lim * lim := heq
  · next hle => exact not_lt.mp hle

/-- Containment after one Laplacian pass (every index is re-projected). -/
theorem lapPass_containment (s : ℚ → ℚ) (hs : SqrtUB s) (centers path : List V3)
    {i : ℕ} (hi : i < path.length) :
    planarDistSq ((lapPass s centers path).getD i vzero) (centers.getD i vzero)
      ≤ widthLimit (centers.getD i vzero) (9 / 10)
        * widthLimit (centers.getD i vzero) (9 / 10) := by
  unfold lapPass
  rw [getD_map_range, if_pos hi]
  exact constrainTo_bound s hs _ _ _

/-- Containment after one post-shortcut smoothing pass. -/
theorem rrtSmoothPass_containment (s : ℚ → ℚ) (hs : SqrtUB s) (centers path : List V3)
    {i : ℕ} (hi : i < path.length) :
    planarDistSq ((rrtSmoothPass s centers path).getD i vzero) (centers.getD i vzero)
      ≤ widthLimit (centers.getD i vzero) (9 / 10)
        * widthLimit (centers.getD i vzero) (9 / 10) := by
  unfold rrtSmoothPass
  rw [getD_map_range, if_pos hi]
  exact constrainTo_bound s hs _ _ _

/-- Containment after one biharmonic pass. -/
theorem qpPass_containment (s : ℚ → ℚ) (hs : SqrtUB s) (centers path : List V3)
    {i : ℕ} (hi : i < path.length) :
    planarDistSq ((qpPass s centers path).getD i vzero) (centers.getD i vzero)
      ≤ widthLimit (centers.getD i vzero) (9 / 10)
        * widthLimit (centers.getD i vzero) (9 / 10) := by
  unfold qpPass
  rw [getD_map_range, if_pos hi]
  exact constrainTo_bound s hs _ _ _

/-- Containment after one hybrid pass. -/
theorem hybridPass_containment (s : ℚ → ℚ) (hs : SqrtUB s) (centers path : List V3)
    {i : ℕ} (hi : i < path.length) :
    planarDistSq ((hybridPass s centers path).getD i vzero) (centers.getD i vzero)
      ≤ widthLimit (centers.getD i vzero) (9 / 10)
        * widthLimit (centers.getD i vzero) (9 / 10) := by
  unfold hybridPass
  rw [getD_map_range, if_pos hi]
  exact constrainTo_bound s hs _ _ _

theorem widthLimit_of_pos {c : V3} (h : 0 < c.y) (f : ℚ) :
    widthLimit c f = c.y * (1 / 2) * f := by
  unfold widthLimit
  rw [if_pos h]

theorem getD_concat_length {α : Type} (l : List α) (x d : α) :
    (l ++ [x]).getD l.length d = x := by
  simp [List.getD_eq_getElem?_getD, List.getElem?_concat_length]

theorem getD_pos_y (cps : List V3) (hw : ∀ p ∈ cps, 0 < p.y) {i : ℕ}
    (hi : i < cps.length) : 0 < (cps.getD i vzero).y := by
  have he : cps.getD i vzero = cps[i] := by
    simp [List.getD_eq_getElem?_getD, List.getElem?_eq_getElem hi]
  rw [he]
  exact hw _ (List.getElem_mem hi)

/-- Containment of the four global optimizers, stated against the limit the
code computes (`widthLimit`, fraction 9/10).  Each final iteration
re-projects every index, so only the last pass matters. -/
theorem optimizeRacingLine_containment (s : ℚ → ℚ) (hs : SqrtUB s) (cps : List V3)
    (h3 : 3 ≤ cps.length) {i : ℕ} (hi : i < cps.length) :
    planarDistSq ((optimizeRacingLine s cps).getD i vzero) (cps.getD i vzero)
      ≤ widthLimit (cps.getD i vzero) (9 / 10) * widthLimit (cps.getD i vzero) (9 / 10) := by
  unfold optimizeRacingLine
  rw [if_neg (Nat.not_lt.mpr h3),
    show (20 : ℕ) = 19 + 1 from rfl, Function.iterate_succ_apply']
  exact lapPass_containment s hs cps _
    (by rw [length_iterate (length_lapPass s cps) 19 cps]; exact hi)

theorem optimizeRRTStar_containment (s : ℚ → ℚ) (hs : SqrtUB s)
    (trials : List (ℕ × ℕ)) (cps : List V3)
    (h3 : 3 ≤ cps.length) {i : ℕ} (hi : i < cps.length) :
    planarDistSq ((optimizeRRTStar s trials cps).getD i vzero) (cps.getD i vzero)
      ≤ widthLimit (cps.getD i vzero) (9 / 10) * widthLimit (cps.getD i vzero) (9 / 10) := by
  unfold optimizeRRTStar
  rw [if_neg (Nat.not_lt.mpr h3)]
  dsimp only
  rw [show (60 : ℕ) = 59 + 1 from rfl, Function.iterate_succ_apply']
  refine rrtSmoothPass_containment s hs cps _ ?_
  rw [length_iterate (length_rrtSmoothPass s cps) 59,
    length_foldl_preserve _ (fun p b => length_applyTrial _ _ p b)]
  exact hi

theorem optimizeQP_containment (s : ℚ → ℚ) (hs : SqrtUB s) (cps : List V3)
    (guess : Option (List V3))
    (h3 : 3 ≤ cps.length) {i : ℕ} (hi : i < cps.length) :
    planarDistSq ((optimizeQP s cps guess).getD i vzero) (cps.getD i vzero)
      ≤ widthLimit (cps.getD i vzero) (9 / 10) * widthLimit (cps.getD i vzero) (9 / 10) := by
  unfold optimizeQP
  rw [if_neg (Nat.not_lt.mpr h3)]
  dsimp only
  rw [show (200 : ℕ) = 199 + 1 from rfl, Function.iterate_succ_apply']
  refine qpPass_containment s hs cps _ ?_
  rw [length_iterate (length_qpPass s cps) 199]
  split
  · exact hi
  · next h => rw [Decidable.of_not_not h]; exact hi

theorem optimizeHybrid_containment (s : ℚ → ℚ) (hs : SqrtUB s) (cps : List V3)
    (h3 : 3 ≤ cps.length) {i : ℕ} (hi : i < cps.length) :
    planarDistSq ((optimizeHybrid s cps).getD i vzero) (cps.getD i vzero)
      ≤ widthLimit (cps.getD i vzero) (9 / 10) * widthLimit (cps.getD i vzero) (9 / 10) := by
  unfold optimizeHybrid
  rw [if_neg (Nat.not_lt.mpr h3),
    show (100 : ℕ) = 99 + 1 from rfl, Function.iterate_succ_apply']
  exact hybridPass_containment s hs cps _
    (by rw [length_iterate (length_hybridPass s cps) 99 cps]; exact hi)

/-! ### The receding-horizon local planner -/

theorem length_windowSmoothIter (s : ℚ → ℚ) (c : List V3) (len i : ℕ) (w : List V3) :
    (windowSmoothIter s c len i w).length = w.length :=
  length_foldl_preserve _ (fun p b => by simp) _ _

/-- After a full inner smoothing iteration over a 6-point window, the
window's second slot holds a point just projected onto the 85% limit of the
centerline point it maps back to. -/
theorem windowSmoothIter_getD_one (s : ℚ → ℚ) (c : List V3) (len i : ℕ) (w : List V3)
    (hw : w.length = 6) :
    ∃ q, (windowSmoothIter s c len i w).getD 1 vzero
      = constrainTo s (c.getD ((i + 1) % len) vzero)
          (widthLimit (c.getD ((i + 1) % len) vzero) (85 / 100)) q := by
  unfold windowSmoothIter
  rw [hw, show (6 : ℕ) - 2 = 4 from rfl,
    show List.range 4 = [0, 1, 2, 3] from rfl]
  simp only [List.foldl_cons, List.foldl_nil]
  have e4 : ∀ (l : List V3) (a : V3), (l.set (3 + 1) a).getD 1 vzero = l.getD 1 vzero :=
    fun l a => getD_set_ne l (by omega) a vzero
  have e3 : ∀ (l : List V3) (a : V3), (l.set (2 + 1) a).getD 1 vzero = l.getD 1 vzero :=
    fun l a => getD_set_ne l (by omega) a vzero
  have e2 : ∀ (l : List V3) (a : V3), (l.set (1 + 1) a).getD 1 vzero = l.getD 1 vzero :=
    fun l a => getD_set_ne l (by omega) a vzero
  have e1 : ∀ (a : V3), (w.set (0 + 1) a).getD 1 vzero = a :=
    fun a => getD_set_self w (by omega) a vzero
  simp only [e4, e3, e2, e1]
  exact ⟨_, rfl⟩

/-- The committed point of each planning cycle satisfies the 85%
containment for the centerline index it corresponds to. -/
theorem commit_containment (s : ℚ → ℚ) (hs : SqrtUB s) (cps : List V3)
    (path : List V3) (i : ℕ) :
    planarDistSq
      (((windowSmoothIter s cps cps.length i)^[15]
        (path.getD i vzero ::
          (List.range 5).map (fun k0 => cps.getD ((i + k0 + 1) % cps.length) vzero))).getD 1 vzero)
      (cps.getD ((i + 1) % cps.length) vzero)
      ≤ widthLimit (cps.getD ((i + 1) % cps.length) vzero) (85 / 100)
        * widthLimit (cps.getD ((i + 1) % cps.length) vzero) (85 / 100) := by
  rw [show (15 : ℕ) = 14 + 1 from rfl, Function.iterate_succ_apply']
  obtain ⟨q, hq⟩ := windowSmoothIter_getD_one s cps cps.length i
    ((windowSmoothIter s cps cps.length i)^[14]
      (path.getD i vzero ::
        (List.range 5).map (fun k0 => cps.getD ((i + k0 + 1) % cps.length) vzero)))
    (by rw [length_iterate (length_windowSmoothIter s cps cps.length i) 14]; rfl)
  rw [hq]
  exact constrainTo_bound s hs _ _ _

/-- Shape lemma for the planning fold: appending one committed point per
cycle keeps the head and makes index `j` the cycle-`j-1` commit. -/
theorem foldRange_append_spec (commit : List V3 → ℕ → V3) (Q : ℕ → V3 → Prop)
    (init : V3) (hcommit : ∀ path i, Q i (commit path i)) (k : ℕ) :
    (((List.range k).foldl (fun path i => path ++ [commit path i]) [init]).length = k + 1)
    ∧ (((List.range k).foldl (fun path i => path ++ [commit path i]) [init]).getD 0 vzero
        = init)
    ∧ ∀ j, 1 ≤ j → j ≤ k →
        Q (j - 1)
          (((List.range k).foldl (fun path i => path ++ [commit path i]) [init]).getD j vzero) := by
  induction k with
  | zero =>
    refine ⟨rfl, rfl, ?_⟩
    intro j h1 h0
    omega
  | succ m ih =>
    obtain ⟨ha, hb, hc⟩ := ih
    rw [List.range_succ, List.foldl_append, List.foldl_cons, List.foldl_nil]
    refine ⟨by simp [ha], ?_, ?_⟩
    · rw [getD_append_left _ _ (by omega)]
      exact hb
    · intro j h1 hjk
      rcases Nat.lt_or_ge j (m + 1) with hj | hj
      · rw [getD_append_left _ _ (by omega)]
        exact hc j h1 (by omega)
      · have hj' : j = m + 1 := by omega
        subst hj'
        have hlen : ((List.range m).foldl
            (fun path i => path ++ [commit path i]) [init]).length = m + 1 := ha
        rw [← hlen, getD_concat_length]
        rw [hlen]
        have := hcommit ((List.range m).foldl
          (fun path i => path ++ [commit path i]) [init]) m
        simpa using this

/-- Containment and head preservation for the pre-snap committed path. -/
theorem localPreSnap_spec (s : ℚ → ℚ) (hs : SqrtUB s) (cps : List V3) :
    ((localPreSnap s cps).getD 0 vzero = cps.getD 0 vzero)
    ∧ ∀ j, 1 ≤ j → j ≤ cps.length - 1 →
        planarDistSq ((localPreSnap s cps).getD j vzero)
          (cps.getD ((j - 1 + 1) % cps.length) vzero)
          ≤ widthLimit (cps.getD ((j - 1 + 1) % cps.length) vzero) (85 / 100)
            * widthLimit (cps.getD ((j - 1 + 1) % cps.length) vzero) (85 / 100) := by
  have h := foldRange_append_spec
    (fun path i =>
      ((windowSmoothIter s cps cps.length i)^[15]
        (path.getD i vzero ::
          (List.range 5).map (fun k0 => cps.getD ((i + k0 + 1) % cps.length) vzero))).getD 1 vzero)
    (fun i v =>
      planarDistSq v (cps.getD ((i + 1) % cps.length) vzero)
        ≤ widthLimit (cps.getD ((i + 1) % cps.length) vzero) (85 / 100)
          * widthLimit (cps.getD ((i + 1) % cps.length) vzero) (85 / 100))
    (cps.getD 0 vzero)
    (fun path i => commit_containment s hs cps path i)
    (cps.length - 1)
  obtain ⟨_, hb, hc⟩ := h
  exact ⟨hb, hc⟩

/-- The local planner's loop-closing condition: the first and last committed
points end within 5 units of each other (full 3-component distance, as
`THREE.Vector3.distanceTo` measures it). -/
def localSnapTriggered (s : ℚ → ℚ) (cps : List V3) : Prop :=
  s (dist3Sq ((localPreSnap s cps).getD 0 vzero)
      ((localPreSnap s cps).getD ((localPreSnap s cps).length - 1) vzero)) < 5

theorem optimizeLocalPlanner_containment (s : ℚ → ℚ) (hs : SqrtUB s) (cps : List V3)
    (h6 : 6 ≤ cps.length) {i : ℕ} (hi : i < cps.length) :
    (i = cps.length - 1 ∧ localSnapTriggered s cps) ∨
    planarDistSq ((optimizeLocalPlanner s cps).getD i vzero) (cps.getD i vzero)
      ≤ widthLimit (cps.getD i vzero) (85 / 100)
        * widthLimit (cps.getD i vzero) (85 / 100) := by
  have hlen : (localPreSnap s cps).length = cps.length := by
    rw [length_localPreSnap]
    omega
  obtain ⟨hhead, hcont⟩ := localPreSnap_spec s hs cps
  have hpre : ∀ j, j < cps.length →
      planarDistSq ((localPreSnap s cps).getD j vzero) (cps.getD j vzero)
        ≤ widthLimit (cps.getD j vzero) (85 / 100)
          * widthLimit (cps.getD j vzero) (85 / 100) := by
    intro j hj
    rcases Nat.eq_zero_or_pos j with h0 | h1
    · subst h0
      rw [hhead]
      have hz : planarDistSq (cps.getD 0 vzero) (cps.getD 0 vzero) = 0 := by
        unfold planarDistSq
        ring
      rw [hz]
      exact mul_self_nonneg _
    · have hc := hcont j h1 (by omega)
      have hidx : (j - 1 + 1) % cps.length = j := by
        rw [Nat.sub_add_cancel h1, Nat.mod_eq_of_lt hj]
      rwa [hidx] at hc
  unfold optimizeLocalPlanner
  rw [if_neg (Nat.not_lt.mpr h6)]
  dsimp only
  split
  · next hsnap =>
    by_cases hi' : i = cps.length - 1
    · exact Or.inl ⟨hi', hsnap⟩
    · right
      rw [getD_set_ne _ (by rw [hlen]; omega)]
      exact hpre i hi
  · exact Or.inr (hpre i hi)

/-- An always-overestimating square-root model, used to discharge the
`SqrtUB` hypothesis at concrete instances. -/
theorem sqrtOver_ub : SqrtUB (fun x => max 1 x) := by
  intro x hx
  show x ≤ max 1 x * max 1 x
  rcases le_total x 1 with h | h
  · rw [max_eq_left h]
    linarith
  · rw [max_eq_right h]
    nlinarith

/-- Claim C1 (corrected).  For every optimizer and every input whose stored
width channel is positive at every point (as every genuine pairing
produces), every output point stays within the configured fraction (90%,
85% for the local planner) of the half stored width of the centerline point
at the same index - EXCEPT the local planner's final point when its
loop-closing snap (first and last committed points within 5 units) rewrites
that point to a copy of the first one.  Distances are compared squared, as
the code does. -/
theorem C1_width_containment (s : ℚ → ℚ) (hs : SqrtUB s) (k : OptKind) (cps : List V3)
    (hmin : minViable k ≤ cps.length) (hw : ∀ p ∈ cps, 0 < p.y)
    {i : ℕ} (hi : i < (runOpt s k cps).length) :
    (k = OptKind.localPlanner ∧ i = cps.length - 1 ∧ localSnapTriggered s cps) ∨
    planarDistSq ((runOpt s k cps).getD i vzero) (cps.getD i vzero)
      ≤ ((cps.getD i vzero).y * (1 / 2) * limitFrac k)
        * ((cps.getD i vzero).y * (1 / 2) * limitFrac k) := by
  cases k with
  | laplacian =>
    right
    have hi' : i < cps.length := by
      rw [runOpt, length_optimizeRacingLine] at hi
      exact hi
    have hc := optimizeRacingLine_containment s hs cps hmin hi'
    rw [widthLimit_of_pos (getD_pos_y cps hw hi')] at hc
    exact hc
  | shortcutter tr =>
    right
    have hi' : i < cps.length := by
      rw [runOpt, length_optimizeRRTStar] at hi
      exact hi
    have hc := optimizeRRTStar_containment s hs tr cps hmin hi'
    rw [widthLimit_of_pos (getD_pos_y cps hw hi')] at hc
    exact hc
  | biharmonic g =>
    right
    have hi' : i < cps.length := by
      rw [runOpt, length_optimizeQP] at hi
      exact hi
    have hc := optimizeQP_containment s hs cps g hmin hi'
    rw [widthLimit_of_pos (getD_pos_y cps hw hi')] at hc
    exact hc
  | hybrid =>
    right
    have hi' : i < cps.length := by
      rw [runOpt, length_optimizeHybrid] at hi
      exact hi
    have hc := optimizeHybrid_containment s hs cps hmin hi'
    rw [widthLimit_of_pos (getD_pos_y cps hw hi')] at hc
    exact hc
  | searchRefine tr =>
    right
    have hi' : i < cps.length := by
      rw [runOpt, length_optimizeRRTQP] at hi
      exact hi
    have hc := optimizeQP_containment s hs cps (some (optimizeRRTStar s tr cps)) hmin hi'
    rw [widthLimit_of_pos (getD_pos_y cps hw hi')] at hc
    exact hc
  | localPlanner =>
    have hi' : i < cps.length := by
      rw [runOpt, length_optimizeLocalPlanner] at hi
      exact hi
    rcases optimizeLocalPlanner_containment s hs cps hmin hi' with ⟨h1, h2⟩ | hc
    · exact Or.inl ⟨rfl, h1, h2⟩
    · right
      rw [widthLimit_of_pos (getD_pos_y cps hw hi')] at hc
      exact hc

/-- Witness for C1: the Laplacian smoother on a 3-point input with stored
width 2 everywhere. -/
theorem C1_width_containment_witness :
    (minViable OptKind.laplacian ≤ ([⟨0, 2, 0⟩, ⟨1, 2, 0⟩, ⟨0, 2, 1⟩] : List V3).length
      ∧ (∀ p ∈ ([⟨0, 2, 0⟩, ⟨1, 2, 0⟩, ⟨0, 2, 1⟩] : List V3), 0 < p.y)
      ∧ 0 < (runOpt (fun x => max 1 x) OptKind.laplacian
          [⟨0, 2, 0⟩, ⟨1, 2, 0⟩, ⟨0, 2, 1⟩]).length)
    ∧ ((OptKind.laplacian = OptKind.localPlanner
        ∧ 0 = ([⟨0, 2, 0⟩, ⟨1, 2, 0⟩, ⟨0, 2, 1⟩] : List V3).length - 1
        ∧ localSnapTriggered (fun x => max 1 x) [⟨0, 2, 0⟩, ⟨1, 2, 0⟩, ⟨0, 2, 1⟩]) ∨
      planarDistSq
        ((runOpt (fun x => max 1 x) OptKind.laplacian
          [⟨0, 2, 0⟩, ⟨1, 2, 0⟩, ⟨0, 2, 1⟩]).getD 0 vzero)
        (([⟨0, 2, 0⟩, ⟨1, 2, 0⟩, ⟨0, 2, 1⟩] : List V3).getD 0 vzero)
        ≤ ((([⟨0, 2, 0⟩, ⟨1, 2, 0⟩, ⟨0, 2, 1⟩] : List V3).getD 0 vzero).y * (1 / 2)
            * limitFrac OptKind.laplacian)
          * ((([⟨0, 2, 0⟩, ⟨1, 2, 0⟩, ⟨0, 2, 1⟩] : List V3).getD 0 vzero).y * (1 / 2)
            * limitFrac OptKind.laplacian)) :=
  ⟨⟨by decide, by decide, by with_unfolding_all decide⟩,
   C1_width_containment (fun x => max 1 x) sqrtOver_ub OptKind.laplacian
     [⟨0, 2, 0⟩, ⟨1, 2, 0⟩, ⟨0, 2, 1⟩] (by decide) (by decide)
     (by with_unfolding_all decide)⟩

/-! ### Counterexample to C1 as stated: the 3.0-width fallback

A control-point sequence whose stored width channel is 0 has, by the
claim's reading, a zero allowance (90% of half of 0), yet the code
substitutes a fallback track width of 3.0 and lets the Laplacian smoother
move every point.  Tracked symbolically through the smoother's symmetry. -/

def cexTri : List V3 := [⟨0, 0, 0⟩, ⟨1 / 2, 0, 0⟩, ⟨0, 0, 1 / 2⟩]

/-- The symmetric states the smoother passes through on `cexTri`: point 0 on
the diagonal, points 1 and 2 mirror images. -/
def triState (a b c : ℚ) : List V3 := [⟨a, 0, a⟩, ⟨b, 0, c⟩, ⟨c, 0, b⟩]

/-- The bounds that keep every tentative move inside the fallback limit. -/
structure TriInv (a b c : ℚ) : Prop where
  ha0 : 0 ≤ a
  ha1 : a ≤ 1 / 2
  hb0 : 0 ≤ b
  hb1 : b ≤ 1 / 2
  hc0 : 0 ≤ c
  hc1 : c ≤ 1 / 2
  hbc : 0 < b + c

/-- When the tentative point already satisfies the squared-distance test,
the projection leaves it unchanged. -/
theorem constrainTo_id (s : ℚ → ℚ) (c : V3) (lim : ℚ) (p : V3)
    (h : ¬ (lim * lim < planarDistSq p c)) : constrainTo s c lim p = p := by
  unfold constrainTo
  unfold planarDistSq at h
  rw [if_neg h]

/-- One Laplacian pass on a symmetric zero-width state: the three points
move toward their neighbour averages and no projection fires. -/
theorem lapPass_triState (s : ℚ → ℚ) (a b c : ℚ) (h : TriInv a b c) :
    lapPass s cexTri (triState a b c)
      = triState (a + ((b + c) / 2 - a) * (3 / 10))
          (b + ((a + c) / 2 - b) * (3 / 10))
          (c + ((a + b) / 2 - c) * (3 / 10)) := by
  obtain ⟨ha0, ha1, hb0, hb1, hc0, hc1, hbc⟩ := h
  have hw0 : widthLimit ⟨0, 0, 0⟩ (9 / 10) = 27 / 20 := by norm_num [widthLimit]
  have hw1 : widthLimit ⟨1 / 2, 0, 0⟩ (9 / 10) = 27 / 20 := by norm_num [widthLimit]
  have hw2 : widthLimit ⟨0, 0, 1 / 2⟩ (9 / 10) = 27 / 20 := by norm_num [widthLimit]
  unfold lapPass
  rw [show (triState a b c).length = 3 from rfl]
  dsimp only
  rw [show List.range 3 = [0, 1, 2] from rfl]
  simp only [List.map_cons, List.map_nil, triState, List.getD_cons_zero,
    List.getD_cons_succ, cexTri]
  norm_num
  refine ⟨?_, ?_, ?_⟩
  · rw [hw0, constrainTo_id]
    · simp only [V3.mk.injEq]
      refine ⟨by ring, trivial, trivial⟩
    · unfold planarDistSq
      dsimp only
      nlinarith
  · rw [hw1, constrainTo_id]
    unfold planarDistSq
    dsimp only
    nlinarith
  · rw [hw2, constrainTo_id]
    · simp only [V3.mk.injEq]
      refine ⟨by ring, trivial, by ring⟩
    · unfold planarDistSq
      dsimp only
      nlinarith

/-- The invariant is preserved and the diagonal coordinate becomes (and
stays) positive. -/
theorem triInv_step (a b c : ℚ) (h : TriInv a b c) :
    TriInv (a + ((b + c) / 2 - a) * (3 / 10))
      (b + ((a + c) / 2 - b) * (3 / 10))
      (c + ((a + b) / 2 - c) * (3 / 10))
    ∧ 0 < a + ((b + c) / 2 - a) * (3 / 10) := by
  obtain ⟨ha0, ha1, hb0, hb1, hc0, hc1, hbc⟩ := h
  refine ⟨⟨by nlinarith, by nlinarith, by nlinarith, by nlinarith, by nlinarith,
    by nlinarith, by nlinarith⟩, by nlinarith⟩

/-- After any positive number of passes the state is symmetric with a
strictly positive diagonal coordinate. -/
theorem lapPass_iter_cexTri (s : ℚ → ℚ) :
    ∀ n : ℕ, ∃ a b c : ℚ,
      (lapPass s cexTri)^[n + 1] cexTri = triState a b c ∧ TriInv a b c ∧ 0 < a := by
  intro n
  induction n with
  | zero =>
    have h0 : TriInv 0 (1 / 2) 0 :=
      ⟨le_refl 0, by norm_num, by norm_num, le_refl _, le_refl 0, by norm_num, by norm_num⟩
    refine ⟨_, _, _, ?_, (triInv_step 0 (1 / 2) 0 h0).1, (triInv_step 0 (1 / 2) 0 h0).2⟩
    rw [Function.iterate_one]
    exact lapPass_triState s 0 (1 / 2) 0 h0
  | succ m ih =>
    obtain ⟨a, b, c, hstate, hinv, hpos⟩ := ih
    refine ⟨_, _, _, ?_, (triInv_step a b c hinv).1, ?_⟩
    · rw [Function.iterate_succ_apply', hstate, lapPass_triState s _ _ _ hinv]
    · have := (triInv_step a b c hinv).2
      exact this

/-- Counterexample to C1 as stated.  On a 3-point input whose stored width
channel is 0 at every point, the claim's allowance (90% of half the stored
pairing distance) is 0, but `optimizeRacingLine` moves point 0 strictly
away from its centerline point: the code substitutes the 3.0 fallback width
instead of honouring the stored channel. -/
theorem C1_counterexample :
    ¬ (planarDistSq ((optimizeRacingLine jsSqrt cexTri).getD 0 vzero) (cexTri.getD 0 vzero)
        ≤ ((cexTri.getD 0 vzero).y * (1 / 2) * (9 / 10))
          * ((cexTri.getD 0 vzero).y * (1 / 2) * (9 / 10))) := by
  obtain ⟨a, b, c, hstate, hinv, hpos⟩ := lapPass_iter_cexTri jsSqrt 19
  have hout : optimizeRacingLine jsSqrt cexTri = triState a b c := by
    unfold optimizeRacingLine
    rw [if_neg (by decide)]
    exact hstate
  rw [hout]
  have h0 : (triState a b c).getD 0 vzero = ⟨a, 0, a⟩ := rfl
  have hc0 : (cexTri.getD 0 vzero) = ⟨0, 0, 0⟩ := rfl
  rw [h0, hc0]
  unfold planarDistSq
  dsimp only
  intro hle
  nlinarith

/-! ## Claim C2: the speed ceiling of the detailed path -/

/-- The curvature-limited speed ceiling `pass0` computes for a sample from
its two neighbours (it is written to both the `velocity` and the
`maxVelocity` field). -/
def limitVelOf (E : Ext) (pPrev p pNext : V3) : ℚ :=
  let v1 := normalize3 E.sqrt ⟨p.x - pPrev.x, 0, p.z - pPrev.z⟩
  let v2 := normalize3 E.sqrt ⟨pNext.x - p.x, 0, pNext.z - p.z⟩
  let angle := angleTo E v1 v2
  let segLen := E.sqrt ((p.x - pPrev.x) * (p.x - pPrev.x) + (p.z - pPrev.z) * (p.z - pPrev.z))
    + E.sqrt ((pNext.x - p.x) * (pNext.x - p.x) + (pNext.z - p.z) * (pNext.z - p.z))
  let k := angle / (segLen * (1 / 2) + 1 / 1000)
  let radius := if 1 / 1000 < k then 1 / k else 10000
  min (E.sqrt (maxGripAcc * radius)) MAX_VELOCITY

/-- Every sample's velocity is within its own ceiling and the global cap
(out-of-range indices give the all-zero default, which satisfies both). -/
def VelOK (l : List PathPoint) : Prop :=
  ∀ i : ℕ, (l.getD i ppDefault).velocity ≤ (l.getD i ppDefault).maxVelocity
    ∧ (l.getD i ppDefault).velocity ≤ MAX_VELOCITY

/-- The two loop-boundary samples carry one and the same ceiling. -/
def SeamOK (l : List PathPoint) : Prop :=
  (l.getD 0 ppDefault).maxVelocity = (l.getD (l.length - 1) ppDefault).maxVelocity

theorem getD_eq_default_of_le {α : Type} (l : List α) {i : ℕ} (d : α)
    (h : l.length ≤ i) : l.getD i d = d := by
  simp [List.getD_eq_getElem?_getD, List.getElem?_eq_none h]

theorem pass0_getD_eq (E : Ext) (pts : List V3) {i : ℕ} (h : i < pts.length) :
    ((pass0 E pts).getD i ppDefault).velocity
        = limitVelOf E (pts.getD ((i + pts.length - 1) % pts.length) vzero)
            (pts.getD i vzero) (pts.getD ((i + 1) % pts.length) vzero)
    ∧ ((pass0 E pts).getD i ppDefault).maxVelocity
        = limitVelOf E (pts.getD ((i + pts.length - 1) % pts.length) vzero)
            (pts.getD i vzero) (pts.getD ((i + 1) % pts.length) vzero) := by
  unfold pass0
  dsimp only
  rw [getD_map_range, if_pos h]
  exact ⟨rfl, rfl⟩

theorem limitVelOf_le (E : Ext) (a b c : V3) : limitVelOf E a b c ≤ MAX_VELOCITY := by
  unfold limitVelOf
  dsimp only
  exact min_le_right _ _

theorem velOK_pass0 (E : Ext) (pts : List V3) : VelOK (pass0 E pts) := by
  intro i
  by_cases h : i < pts.length
  · obtain ⟨hv, hm⟩ := pass0_getD_eq E pts h
    rw [hv, hm]
    exact ⟨le_refl _, limitVelOf_le E _ _ _⟩
  · have hlen : (pass0 E pts).length ≤ i := by
      rw [length_pass0]
      omega
    rw [getD_eq_default_of_le _ _ hlen]
    exact ⟨le_refl _, show (0 : ℚ) ≤ MAX_VELOCITY from by norm_num [MAX_VELOCITY]⟩

theorem lenSq3_normalize3_zero (s : ℚ → ℚ) (v : V3) (hx : v.x = 0) (hy : v.y = 0)
    (hz : v.z = 0) : lenSq3 (normalize3 s v) = 0 := by
  simp [normalize3, lenSq3, hx, hy, hz]

theorem angleTo_left_zero (E : Ext) (hs0 : E.sqrt 0 = 0) (u v : V3)
    (hu : lenSq3 u = 0) : angleTo E u v = E.halfPi := by
  unfold angleTo
  dsimp only
  rw [hu, zero_mul, hs0, if_pos rfl]

theorem angleTo_right_zero (E : Ext) (hs0 : E.sqrt 0 = 0) (u v : V3)
    (hv : lenSq3 v = 0) : angleTo E u v = E.halfPi := by
  unfold angleTo
  dsimp only
  rw [hv, mul_zero, hs0, if_pos rfl]

/-- At the seam of a closed sampling the duplicated endpoint makes one of
the two tangent vectors the zero vector on both sides, so both boundary
samples get the right-angle fallback of `angleTo`; with equal boundary
chord lengths the two ceilings coincide. -/
theorem limitVelOf_seam (E : Ext) (hs0 : E.sqrt 0 = 0) (P B C : V3)
    (hchord : E.sqrt (planarDistSq B P) = E.sqrt (planarDistSq P C)) :
    limitVelOf E P P B = limitVelOf E C P P := by
  unfold limitVelOf
  dsimp only
  rw [angleTo_left_zero E hs0 _ _ (lenSq3_normalize3_zero E.sqrt
        ⟨P.x - P.x, 0, P.z - P.z⟩ (sub_self P.x) rfl (sub_self P.z)),
      angleTo_right_zero E hs0 _ _ (lenSq3_normalize3_zero E.sqrt
        ⟨P.x - P.x, 0, P.z - P.z⟩ (sub_self P.x) rfl (sub_self P.z))]
  rw [show (P.x - P.x) * (P.x - P.x) + (P.z - P.z) * (P.z - P.z) = 0 from by ring]
  rw [hs0, zero_add, add_zero]
  rw [show (B.x - P.x) * (B.x - P.x) + (B.z - P.z) * (B.z - P.z)
        = planarDistSq B P from rfl]
  rw [show (P.x - C.x) * (P.x - C.x) + (P.z - C.z) * (P.z - C.z)
        = planarDistSq P C from rfl]
  rw [hchord]

theorem pass0_seamOK (E : Ext) (pts : List V3) (h3 : 3 ≤ pts.length)
    (hs0 : E.sqrt 0 = 0)
    (hseam : pts.getD 0 vzero = pts.getD (pts.length - 1) vzero)
    (hchord : E.sqrt (planarDistSq (pts.getD 1 vzero) (pts.getD 0 vzero))
        = E.sqrt (planarDistSq (pts.getD 0 vzero) (pts.getD (pts.length - 2) vzero))) :
    SeamOK (pass0 E pts) := by
  unfold SeamOK
  rw [length_pass0]
  obtain ⟨_, hm0⟩ := pass0_getD_eq E pts (show 0 < pts.length from by omega)
  obtain ⟨_, hmL⟩ := pass0_getD_eq E pts (show pts.length - 1 < pts.length from by omega)
  rw [hm0, hmL]
  have e1 : (0 + pts.length - 1) % pts.length = pts.length - 1 := by
    rw [Nat.zero_add]
    exact Nat.mod_eq_of_lt (by omega)
  have e2 : (0 + 1) % pts.length = 1 := Nat.mod_eq_of_lt (by omega)
  have e3 : (pts.length - 1 + pts.length - 1) % pts.length = pts.length - 2 := by
    rw [show pts.length - 1 + pts.length - 1 = pts.length + (pts.length - 2) from by omega]
    rw [Nat.add_mod_left]
    exact Nat.mod_eq_of_lt (by omega)
  have e4 : (pts.length - 1 + 1) % pts.length = 0 := by
    rw [show pts.length - 1 + 1 = pts.length from by omega]
    exact Nat.mod_self _
  rw [e1, e2, e3, e4, ← hseam]
  exact limitVelOf_seam E hs0 _ _ _ hchord

theorem setVel_maxVelocity (l : List PathPoint) (i j : ℕ) (v : ℚ) :
    ((setVel l i v).getD j ppDefault).maxVelocity
      = (l.getD j ppDefault).maxVelocity := by
  by_cases hij : i = j
  · subst hij
    by_cases hi : i < l.length
    · rw [getD_setVel_self l hi]
    · have h1 : l.length ≤ i := le_of_not_lt hi
      have h2 : (setVel l i v).length ≤ i := by
        rw [length_setVel]
        exact h1
      rw [getD_eq_default_of_le _ _ h2, getD_eq_default_of_le _ _ h1]
  · rw [getD_setVel_ne l hij]

theorem velOK_backwardPass (s : ℚ → ℚ) (l : List PathPoint) (h : VelOK l) :
    VelOK (backwardPass s l) := by
  intro i
  obtain ⟨h1, h2⟩ := h i
  refine ⟨?_, le_trans (backwardPass_velocity_le s l i) h2⟩
  rw [backwardPass_maxVelocity]
  exact le_trans (backwardPass_velocity_le s l i) h1

theorem velOK_forwardPass (s : ℚ → ℚ) (l : List PathPoint) (h : VelOK l) :
    VelOK (forwardPass s l) := by
  intro i
  obtain ⟨h1, h2⟩ := h i
  refine ⟨?_, le_trans (forwardPass_velocity_le s l i) h2⟩
  rw [forwardPass_maxVelocity]
  exact le_trans (forwardPass_velocity_le s l i) h1

theorem seamOK_backwardPass (s : ℚ → ℚ) (l : List PathPoint) (h : SeamOK l) :
    SeamOK (backwardPass s l) := by
  unfold SeamOK at h ⊢
  rw [length_backwardPass, backwardPass_maxVelocity, backwardPass_maxVelocity]
  exact h

theorem seamOK_forwardPass (s : ℚ → ℚ) (l : List PathPoint) (h : SeamOK l) :
    SeamOK (forwardPass s l) := by
  unfold SeamOK at h ⊢
  rw [length_forwardPass, forwardPass_maxVelocity, forwardPass_maxVelocity]
  exact h

theorem seamOK_setVel (l : List PathPoint) (i : ℕ) (v : ℚ) (h : SeamOK l) :
    SeamOK (setVel l i v) := by
  unfold SeamOK at h ⊢
  rw [length_setVel, setVel_maxVelocity, setVel_maxVelocity]
  exact h

theorem seamOK_seedStep (l : List PathPoint) (h : SeamOK l) : SeamOK (seedStep l) := by
  unfold seedStep
  exact seamOK_setVel l _ _ h

theorem seamOK_propagateStep (l : List PathPoint) (h : SeamOK l) :
    SeamOK (propagateStep l) := by
  unfold propagateStep
  exact seamOK_setVel l _ _ h

theorem seamOK_resyncStep (l : List PathPoint) (h : SeamOK l) :
    SeamOK (resyncStep l) := by
  unfold resyncStep
  exact seamOK_setVel l _ _ h

theorem velOK_seedStep (l : List PathPoint) (h : VelOK l) : VelOK (seedStep l) := by
  intro i
  obtain ⟨h1, h2⟩ := h i
  have hv := seedStep_velocity_le l i
  constructor
  · unfold seedStep at hv ⊢
    rw [setVel_maxVelocity]
    exact le_trans hv h1
  · exact le_trans hv h2

theorem velOK_propagateStep (l : List PathPoint) (h : VelOK l) (hs : SeamOK l) :
    VelOK (propagateStep l) := by
  intro i
  obtain ⟨h1, h2⟩ := h i
  unfold propagateStep
  by_cases hi : (0 : ℕ) = i
  · subst hi
    by_cases hl : 0 < l.length
    · rw [getD_setVel_self l hl]
      obtain ⟨hL1, hL2⟩ := h (l.length - 1)
      refine ⟨?_, hL2⟩
      show (l.getD (l.length - 1) ppDefault).velocity ≤ (l.getD 0 ppDefault).maxVelocity
      rw [hs]
      exact hL1
    · have hnil : l = [] := List.length_eq_zero.mp (by omega)
      subst hnil
      exact ⟨le_refl _, show (0 : ℚ) ≤ MAX_VELOCITY from by norm_num [MAX_VELOCITY]⟩
  · rw [getD_setVel_ne l hi]
    exact ⟨h1, h2⟩

theorem velOK_resyncStep (l : List PathPoint) (h : VelOK l) (hs : SeamOK l) :
    VelOK (resyncStep l) := by
  intro i
  obtain ⟨h1, h2⟩ := h i
  unfold resyncStep
  by_cases hi : l.length - 1 = i
  · subst hi
    by_cases hl : l.length - 1 < l.length
    · rw [getD_setVel_self l hl]
      obtain ⟨h01, h02⟩ := h 0
      refine ⟨?_, h02⟩
      show (l.getD 0 ppDefault).velocity ≤ (l.getD (l.length - 1) ppDefault).maxVelocity
      rw [← hs]
      exact h01
    · have hnil : l = [] := List.length_eq_zero.mp (by omega)
      subst hnil
      exact ⟨le_refl _, show (0 : ℚ) ≤ MAX_VELOCITY from by norm_num [MAX_VELOCITY]⟩
  · rw [getD_setVel_ne l hi]
    exact ⟨h1, h2⟩

theorem velOK_solveIter (s : ℚ → ℚ) (b : Bool) (l : List PathPoint)
    (h : VelOK l) (hs : SeamOK l) :
    VelOK (solveIter s b l) ∧ SeamOK (solveIter s b l) := by
  unfold solveIter
  dsimp only
  have h1 : VelOK (if b then seedStep l else l) := by
    cases b with
    | false => exact h
    | true => exact velOK_seedStep l h
  have hs1 : SeamOK (if b then seedStep l else l) := by
    cases b with
    | false => exact hs
    | true => exact seamOK_seedStep l hs
  have h2 := velOK_backwardPass s _ h1
  have hs2 := seamOK_backwardPass s _ hs1
  have h3 := velOK_propagateStep _ h2 hs2
  have hs3 := seamOK_propagateStep _ hs2
  have h4 := velOK_forwardPass s _ h3
  have hs4 := seamOK_forwardPass s _ hs3
  exact ⟨velOK_resyncStep _ h4 hs4, seamOK_resyncStep _ hs4⟩

theorem velOK_flyingLapSolver (s : ℚ → ℚ) (l : List PathPoint)
    (h : VelOK l) (hs : SeamOK l) : VelOK (flyingLapSolver s l) := by
  unfold flyingLapSolver
  obtain ⟨h1, hs1⟩ := velOK_solveIter s false l h hs
  obtain ⟨h2, hs2⟩ := velOK_solveIter s true _ h1 hs1
  obtain ⟨h3, hs3⟩ := velOK_solveIter s true _ h2 hs2
  exact (velOK_solveIter s true _ h3 hs3).1

theorem accelStep_velocity (p q : PathPoint) : (accelStep p q).velocity = p.velocity := rfl

theorem accelStep_maxVelocity (p q : PathPoint) :
    (accelStep p q).maxVelocity = p.maxVelocity := rfl

theorem accelColorPass_fields (l : List PathPoint) (i : ℕ) :
    ((accelColorPass l).getD i ppDefault).velocity = (l.getD i ppDefault).velocity
    ∧ ((accelColorPass l).getD i ppDefault).maxVelocity
        = (l.getD i ppDefault).maxVelocity := by
  unfold accelColorPass
  dsimp only
  by_cases hl : 0 < l.length
  · by_cases hi : l.length - 1 = i
    · subst hi
      have hM : l.length - 1 <
          ((List.range l.length).map (fun j => if j < l.length - 1
            then accelStep (l.getD j ppDefault) (l.getD (j + 1) ppDefault)
            else l.getD j ppDefault)).length := by
        rw [List.length_map, List.length_range]
        omega
      rw [getD_set_self _ hM]
      dsimp only
      rw [getD_map_range, if_pos (show l.length - 1 < l.length from by omega),
          if_neg (lt_irrefl (l.length - 1))]
      exact ⟨rfl, rfl⟩
    · rw [getD_set_ne _ hi, getD_map_range]
      by_cases hin : i < l.length
      · rw [if_pos hin, if_pos (show i < l.length - 1 from by omega)]
        exact ⟨rfl, rfl⟩
      · rw [if_neg hin, getD_eq_default_of_le l ppDefault (by omega)]
        exact ⟨rfl, rfl⟩
  · have hnil : l = [] := List.length_eq_zero.mp (by omega)
    subst hnil
    exact ⟨rfl, rfl⟩

/-- The whole downstream pipeline of `generateDetailedPath` keeps every
velocity within both ceilings, for any sampled point list whose two
endpoint samples coincide and whose two boundary chords have equal
square-root lengths. -/
theorem detailedPath_velOK (E : Ext) (pts : List V3)
    (hs0 : E.sqrt 0 = 0) (h3 : 3 ≤ pts.length)
    (hseam : pts.getD 0 vzero = pts.getD (pts.length - 1) vzero)
    (hchord : E.sqrt (planarDistSq (pts.getD 1 vzero) (pts.getD 0 vzero))
        = E.sqrt (planarDistSq (pts.getD 0 vzero) (pts.getD (pts.length - 2) vzero))) :
    VelOK (accelColorPass (flyingLapSolver E.sqrt (pass0 E pts))) := by
  have h0 : VelOK (pass0 E pts) := velOK_pass0 E pts
  have hsm : SeamOK (pass0 E pts) := pass0_seamOK E pts h3 hs0 hseam hchord
  have h1 : VelOK (flyingLapSolver E.sqrt (pass0 E pts)) :=
    velOK_flyingLapSolver _ _ h0 hsm
  intro i
  obtain ⟨ha, hb⟩ := h1 i
  obtain ⟨hv, hm⟩ := accelColorPass_fields (flyingLapSolver E.sqrt (pass0 E pts)) i
  rw [hv, hm]
  exact ⟨ha, hb⟩

theorem getD_getSpacedPoints (E : Ext) (cps : List V3) (n : ℕ) {d : ℕ}
    (h : d < n + 1) :
    (getSpacedPoints E cps n).getD d vzero = E.curveAt cps ((d : ℚ) / (n : ℚ)) := by
  unfold getSpacedPoints
  rw [getD_map_range, if_pos h]

/-- Claim C2 (confirmed).  For at least 3 control points, under the
properties the code relies on from its externals - `Math.sqrt 0 = 0`, the
fitted curve is closed (`getPointAt 0 = getPointAt 1`), and the uniform
arc-length resampling gives the first and last sampled chords equal
square-root lengths - every sample of `generateDetailedPath` ends with
`velocity ≤ maxVelocity` (its own curvature-derived ceiling) and
`velocity ≤ MAX_VELOCITY`, after all four solver iterations and the
acceleration pass.  The loop-boundary copy steps stay safe because the
duplicated closed-curve endpoint forces the two boundary ceilings to be
equal. -/
theorem C2_speed_ceiling (E : Ext) (cps : List V3)
    (h3 : 3 ≤ cps.length)
    (hs0 : E.sqrt 0 = 0)
    (hclosed : E.curveAt cps 0 = E.curveAt cps 1)
    (huni : E.sqrt (planarDistSq
          (E.curveAt cps (((1 : ℕ) : ℚ) / ((max 200 (cps.length * 8) : ℕ) : ℚ)))
          (E.curveAt cps 0))
        = E.sqrt (planarDistSq (E.curveAt cps 0)
          (E.curveAt cps (((max 200 (cps.length * 8) - 1 : ℕ) : ℚ)
            / ((max 200 (cps.length * 8) : ℕ) : ℚ)))))
    (i : ℕ) :
    ((generateDetailedPath E cps).getD i ppDefault).velocity
        ≤ ((generateDetailedPath E cps).getD i ppDefault).maxVelocity
    ∧ ((generateDetailedPath E cps).getD i ppDefault).velocity ≤ MAX_VELOCITY := by
  unfold generateDetailedPath
  rw [if_neg (show ¬ cps.length < 3 from by omega)]
  dsimp only
  have h200 : 200 ≤ max 200 (cps.length * 8) := Nat.le_max_left _ _
  have hn : (getSpacedPoints E cps (max 200 (cps.length * 8))).length
      = max 200 (cps.length * 8) + 1 := length_getSpacedPoints E cps _
  have hc0 : (getSpacedPoints E cps (max 200 (cps.length * 8))).getD 0 vzero
      = E.curveAt cps 0 := by
    rw [getD_getSpacedPoints E cps _ (by omega)]
    norm_num
  have hcL : (getSpacedPoints E cps (max 200 (cps.length * 8))).getD
        ((getSpacedPoints E cps (max 200 (cps.length * 8))).length - 1) vzero
      = E.curveAt cps 1 := by
    rw [hn]
    rw [show max 200 (cps.length * 8) + 1 - 1 = max 200 (cps.length * 8) from by omega]
    rw [getD_getSpacedPoints E cps _ (by omega)]
    rw [div_self (show ((max 200 (cps.length * 8) : ℕ) : ℚ) ≠ 0 from
      Nat.cast_ne_zero.mpr (by omega))]
  have hc1 : (getSpacedPoints E cps (max 200 (cps.length * 8))).getD 1 vzero
      = E.curveAt cps (((1 : ℕ) : ℚ) / ((max 200 (cps.length * 8) : ℕ) : ℚ)) := by
    rw [getD_getSpacedPoints E cps _ (by omega)]
  have hcP : (getSpacedPoints E cps (max 200 (cps.length * 8))).getD
        ((getSpacedPoints E cps (max 200 (cps.length * 8))).length - 2) vzero
      = E.curveAt cps (((max 200 (cps.length * 8) - 1 : ℕ) : ℚ)
          / ((max 200 (cps.length * 8) : ℕ) : ℚ)) := by
    rw [hn]
    rw [show max 200 (cps.length * 8) + 1 - 2 = max 200 (cps.length * 8) - 1 from by omega]
    rw [getD_getSpacedPoints E cps _ (by omega)]
  refine (detailedPath_velOK E _ hs0 ?_ ?_ ?_) i
  · rw [hn]
    omega
  · rw [hc0, hcL]
    exact hclosed
  · rw [hc0, hc1, hcP]
    exact huni

/-- Witness for C2: the constant-curve externals on a concrete 3-point
input (a closed constant curve; both boundary chords are zero). -/
theorem C2_speed_ceiling_witness :
    ((3 : ℕ) ≤ ([vzero, vzero, vzero] : List V3).length)
    ∧ extConst.sqrt 0 = 0
    ∧ extConst.curveAt [vzero, vzero, vzero] 0 = extConst.curveAt [vzero, vzero, vzero] 1
    ∧ (((generateDetailedPath extConst [vzero, vzero, vzero]).getD 0 ppDefault).velocity
        ≤ ((generateDetailedPath extConst [vzero, vzero, vzero]).getD 0 ppDefault).maxVelocity
      ∧ ((generateDetailedPath extConst [vzero, vzero, vzero]).getD 0 ppDefault).velocity
          ≤ MAX_VELOCITY) :=
  ⟨by decide, by with_unfolding_all decide, rfl,
   C2_speed_ceiling extConst [vzero, vzero, vzero] (by decide)
     (by with_unfolding_all decide) rfl rfl 0⟩

end PathPlanning
